import Mathlib

/-!
Shallow embedding of the `fmu_handler` repository
(src/fmu_handler/fmu_types.py and src/fmu_handler/fmu_adapter.py).

The XML model description is embedded as an `FMUDocument` structure (lxml
element tree restricted to the nodes the code reads and writes), the FMU
archive as a list of `ZipMember`s, and each Python method of `FMUAdapter`
as a Lean function.  Python exceptions are modelled by `Except FMUError`,
with one `FMUError` constructor per distinct raise site; in-place object
mutation is modelled by returning the updated state (for
`__set_scalar_variable_by_name`, which mutates fields one by one and can
raise midway, the state reached so far is returned next to the error).
Machine floats are modelled by exact rationals: every claim under study is
insensitive to float rounding, and the decimal strings occurring in model
descriptions are parsed and re-printed exactly by the functions below.
-/

namespace FMUHandler

/-! ### Python primitive conversions -/

/-- Python `bool(s)` applied to a string: the truthiness of the string,
`True` exactly when the string is non-empty (so `bool("false") = True`). -/
def pyBoolOfString (s : String) : Bool := s ≠ ""

/-- Digit-list to number helper for the decimal conversions. -/
def digitsVal (cs : List Char) : Nat :=
  cs.foldl (fun a c => a * 10 + (c.toNat - 48)) 0

/-- Python `int(s)` on the decimal literals that occur in model
descriptions: optional sign followed by digits; anything else raises
`ValueError`, modelled as `none`. -/
def pyIntOfString (s : String) : Option Int :=
  let core : List Char → Option Int := fun cs =>
    if cs ≠ [] ∧ cs.all Char.isDigit then some (digitsVal cs : Int) else none
  match s.toList with
  | '-' :: rest => (core rest).map (fun i => -i)
  | '+' :: rest => core rest
  | cs => core cs

/-- Python `float(s)` on the plain decimal literals that occur in model
descriptions: optional sign, integer digits, optional dot and fraction
digits (at least one digit overall); other strings raise `ValueError`,
modelled as `none`.  The value is kept as an exact rational. -/
def pyFloatOfString (s : String) : Option ℚ :=
  let (neg, cs) :=
    match s.toList with
    | '-' :: rest => (true, rest)
    | '+' :: rest => (false, rest)
    | cs => (false, cs)
  let ip := cs.takeWhile (fun c => c ≠ '.')
  let val? : Option ℚ :=
    match cs.dropWhile (fun c => c ≠ '.') with
    | [] => if ip ≠ [] ∧ ip.all Char.isDigit then some (digitsVal ip : ℚ) else none
    | '.' :: fp =>
      if ip.all Char.isDigit ∧ fp.all Char.isDigit ∧ ¬(ip = [] ∧ fp = []) then
        some ((digitsVal ip : ℚ) + (digitsVal fp : ℚ) / (10 ^ fp.length : ℚ))
      else none
    | _ => none
  val?.map (fun q => if neg then -q else q)

/-- Smallest number of decimal digits after the point that represents the
rational exactly (floats always admit one; searched up to 400 digits,
enough for every IEEE double). -/
def decExponent (q : ℚ) : Option Nat :=
  (List.range 400).find? (fun k => (q * 10 ^ k).den = 1)

/-- Python `str(f)` on a float: sign, integer part, dot, and the shortest
exact fraction digits, with at least one fractional digit
(`str(3.0) = "3.0"`, `str(0.25) = "0.25"`). -/
def floatStr (q : ℚ) : String :=
  match decExponent q with
  | some k0 =>
    let k := max k0 1
    let n := q.num.natAbs * 10 ^ k / q.den
    let ds := toString n
    let ds := if ds.length ≤ k then String.mk (List.replicate (k + 1 - ds.length) '0') ++ ds else ds
    (if q < 0 then "-" else "") ++ ds.dropRight k ++ "." ++ ds.takeRight k
  | none => toString q

/-! ### Enumerations and the scalar-variable record (fmu_types.py) -/

inductive Causality
  | parameter | calculatedParameter | input | output | localVar | independent
  deriving DecidableEq, Repr

/-- Python `Causality[s]` (enum lookup by member name; an unknown name
raises `KeyError`, modelled as `none`). -/
def causalityOfString (s : String) : Option Causality :=
  if s = "parameter" then some Causality.parameter
  else if s = "calculatedParameter" then some Causality.calculatedParameter
  else if s = "input" then some Causality.input
  else if s = "output" then some Causality.output
  else if s = "local" then some Causality.localVar
  else if s = "independent" then some Causality.independent
  else none

/-- Python `causality.name`. -/
def causalityEnumName : Causality → String
  | Causality.parameter => "parameter"
  | Causality.calculatedParameter => "calculatedParameter"
  | Causality.input => "input"
  | Causality.output => "output"
  | Causality.localVar => "local"
  | Causality.independent => "independent"

inductive Variability
  | constant | fixed | tunable | discrete | continuous
  deriving DecidableEq, Repr

inductive Initial
  | exact | approx | calculated
  deriving DecidableEq, Repr

/-- Python `Initial[s]`. -/
def initialOfString (s : String) : Option Initial :=
  if s = "exact" then some Initial.exact
  else if s = "approx" then some Initial.approx
  else if s = "calculated" then some Initial.calculated
  else none

/-- Python `initial.name`. -/
def initialEnumName : Initial → String
  | Initial.exact => "exact"
  | Initial.approx => "approx"
  | Initial.calculated => "calculated"

inductive FMUDataTypes
  | real | integer | boolean | string | enumeration
  deriving DecidableEq, Repr

/-- The typed `start` value of a scalar variable
(`Union[str, float, bool, int, Enum]` in fmu_types.py; floats as exact
rationals). -/
inductive StartValue
  | real (q : ℚ)
  | integer (i : Int)
  | boolean (b : Bool)
  | str (s : String)
  deriving DecidableEq, Repr

/-- Python `str(start)`. -/
def pyStrOfStart : StartValue → String
  | StartValue.real q => floatStr q
  | StartValue.integer i => toString i
  | StartValue.boolean b => if b then "True" else "False"
  | StartValue.str s => s

/-- Python `==` between start values: numeric values compare across
`bool`/`int`/`float` (`True == 1 == 1.0`), strings compare only with
strings. -/
def pyEqStart : StartValue → StartValue → Bool
  | StartValue.str a, StartValue.str b => a = b
  | StartValue.str _, _ => false
  | _, StartValue.str _ => false
  | a, b =>
    let num : StartValue → ℚ := fun v =>
      match v with
      | StartValue.real q => q
      | StartValue.integer i => (i : ℚ)
      | StartValue.boolean b => if b then 1 else 0
      | StartValue.str _ => 0
    num a = num b

/-- Python truthiness of a start value (`if query.start:`):
nonzero number, `True`, or non-empty string. -/
def truthyStart : StartValue → Bool
  | StartValue.real q => q ≠ 0
  | StartValue.integer i => i ≠ 0
  | StartValue.boolean b => b
  | StartValue.str s => s ≠ ""

/-- The `FMUScalarVariable` dataclass: every field defaults to `None`. -/
structure FMUScalarVariable where
  name : Option String := none
  value_reference : Option Int := none
  causality : Option Causality := none
  data_type : Option FMUDataTypes := none
  variability : Option Variability := none
  description : Option String := none
  initial : Option Initial := none
  can_handle_multiple_set_per_time_instant : Option String := none
  start : Option StartValue := none
  unit : Option String := none
  deriving DecidableEq, Repr

structure ModelVariables where
  scalar_variables : List FMUScalarVariable
  deriving DecidableEq, Repr

structure DefaultExperiment where
  start_time : Option ℚ := none
  stop_time : Option ℚ := none
  tolerance : Option ℚ := none
  step_size : Option ℚ := none
  deriving DecidableEq, Repr

structure CoSimulation where
  model_identifier : Option String
  needs_execution_tool : Bool := false
  can_handle_variable_communication_step_size : Bool := false
  can_interpolate_inputs : Bool := false
  max_output_derivative_order : Option String := none
  can_run_asynchronuously : Bool := false
  can_be_instantiated_only_once_per_process : Bool := false
  can_not_use_memory_management_functions : Bool := false
  can_get_and_set_fmu_state : Bool := false
  provides_directional_derivative : Bool := false
  can_serialize_fmu_state : Bool := false
  deriving DecidableEq, Repr

inductive FMUSimulationType
  | coSimulation (c : CoSimulation)
  | modelExchange
  deriving DecidableEq, Repr

structure FMIModelDescription where
  fmi_version : Option String := none
  model_name : Option String := none
  guid : Option String := none
  variable_naming_convention : Option String := none
  number_of_event_indicators : Option String := none
  model_variables : ModelVariables
  default_experiment : DefaultExperiment
  fmu_simulation_type : FMUSimulationType
  description : Option String := none
  author : Option String := none
  version : Option String := none
  copyright : Option String := none
  license : Option String := none
  generation_tool : Option String := none
  generation_date_and_time : Option String := none
  deriving DecidableEq, Repr

/-! ### The XML element tree (the part of lxml the adapter touches) -/

/-- Python f-string of an optional string (`None` renders as `"None"`). -/
def pyDisplayOptStr : Option String → String
  | some s => s
  | none => "None"

/-- The `elem.get k` / `k in elem.attrib`: attributes as an ordered
association list with unique keys, first match wins. -/
def getAttr : List (String × String) → String → Option String
  | [], _ => none
  | (k', v') :: rest, k => if k' = k then some v' else getAttr rest k

/-- The `elem.attrib[k] = v`: update in place if the key exists (keeping its
position), else append — Python dict semantics. -/
def setAttr : List (String × String) → String → String → List (String × String)
  | [], k, v => [(k, v)]
  | (k', v') :: rest, k, v =>
    if k' = k then (k, v) :: rest else (k', v') :: setAttr rest k v

/-- The (single) typed value child of a `ScalarVariable` element,
e.g. `<Real start="3.5"/>`. -/
structure XMLChild where
  tag : String
  attrs : List (String × String)
  deriving DecidableEq, Repr

/-- A `ScalarVariable` element: its attributes and its child nodes
(`variable[0]` is the head of `children`). -/
structure SVElement where
  attrs : List (String × String)
  children : List XMLChild
  deriving DecidableEq, Repr

/-- The modelDescription.xml element tree, restricted to the nodes the
adapter reads or writes: the root attributes, the `CoSimulation` /
`ModelExchange` / `DefaultExperiment` sections, and the ScalarVariable
elements under `ModelVariables`. -/
structure FMUDocument where
  rootAttrs : List (String × String)
  coSimulation : Option (List (String × String))
  modelExchangePresent : Bool
  defaultExperiment : Option (List (String × String))
  modelVariables : Option (List SVElement)
  deriving DecidableEq, Repr

/-- The `fmu_tree.findall("ModelVariables//ScalarVariable")`: empty when the
section is absent. -/
def findallScalarVariables (tree : FMUDocument) : List SVElement :=
  match tree.modelVariables with
  | none => []
  | some vs => vs

/-! ### The zip archive (the part of zipfile the adapter touches) -/

/-- The `zipfile.ZIP_DEFLATED`. -/
def ZIP_DEFLATED : Nat := 8

/-- The bytes of an archive member.  A member holding a well-formed XML
serialization of a document tree is identified with that tree:
`etree.tostring` is a deterministic injective rendering and `etree.parse`
is its left inverse, so byte equality of such members coincides with
equality of the trees. -/
inductive MemberContent
  | xmlDocument (d : FMUDocument)
  | rawBytes (b : List Nat)
  deriving DecidableEq, Repr

/-- One archive member together with the `ZipInfo` metadata that
`writestr` preserves (name, timestamp, compression scheme). -/
structure ZipMember where
  filename : String
  date_time : Nat
  compress_type : Nat
  content : MemberContent
  deriving DecidableEq, Repr

/-! ### Errors (one constructor per raise site of fmu_adapter.py) -/

inductive FMUError
  /-- Python `KeyError` "Could not find FMUScalarVariable parameters…" (line 217). -/
  | scalarVariablesNotFound
  /-- Python `KeyError` "Could not find DefaultExperiment parameters…" (line 126). -/
  | defaultExperimentNotFound
  /-- Python `KeyError` "Could not find CoSimulation parameters…" (line 159). -/
  | coSimulationNotFound
  /-- Python `NotImplementedError` "Parsing ModelExchange is not implemented." (line 157). -/
  | modelExchangeNotImplemented
  /-- Python `ValueError`/`TypeError`/`KeyError` raised by `int`, `float`,
  or an enum lookup on a malformed attribute value. -/
  | conversionError
  /-- Python `IndexError` from `variable[0]` on a childless element. -/
  | indexError
  /-- Python `KeyError` "Scalar variable … not found" / "ScalarVariable with
  name … could not be found" (lines 321, 447). -/
  | scalarVariableNotFound (name : String)
  /-- Python `KeyError` "Desired attribute is not set in original fmu." (lines 327-357). -/
  | attributeNotSet
  /-- Python `AttributeError` from operating on `None` when a tree lookup fails
  during serialization (lines 377-408, 435-436). -/
  | attributeError
  /-- Python `KeyError` from `archive.open("modelDescription.xml")` (line 81). -/
  | archiveMemberNotFound
  /-- Python `etree.XMLSyntaxError` on a member that is not well-formed XML. -/
  | xmlSyntaxError
  deriving DecidableEq, Repr

/-! ### Document Parser (`FMUAdapter.__parse_fmu_*`, lines 109-247) -/

/-- Lines 180-197: `data_type` derived from the tag of the first child
(`Real`, `Integer`, `Boolean`, `Enumeration`, anything else → string) and
the optional `start` attribute converted with `float`/`int`/`bool`/`str`
respectively. -/
def parse_data_type_and_start (child : XMLChild) :
    Except FMUError (FMUDataTypes × Option StartValue) :=
  let startAttr := getAttr child.attrs "start"
  if child.tag = "Real" then
    match startAttr with
    | none => Except.ok (FMUDataTypes.real, (none : Option StartValue))
    | some s =>
      match pyFloatOfString s with
      | none => Except.error FMUError.conversionError
      | some q => Except.ok (FMUDataTypes.real, some (StartValue.real q))
  else if child.tag = "Integer" then
    match startAttr with
    | none => Except.ok (FMUDataTypes.integer, (none : Option StartValue))
    | some s =>
      match pyIntOfString s with
      | none => Except.error FMUError.conversionError
      | some i => Except.ok (FMUDataTypes.integer, some (StartValue.integer i))
  else if child.tag = "Boolean" then
    Except.ok (FMUDataTypes.boolean, startAttr.map (fun s => StartValue.boolean (pyBoolOfString s)))
  else if child.tag = "Enumeration" then
    Except.ok (FMUDataTypes.enumeration, startAttr.map StartValue.str)
  else
    Except.ok (FMUDataTypes.string, startAttr.map StartValue.str)

/-- Line 175: `int(variable.get("valueReference"))` — `TypeError` on a
missing attribute, `ValueError` on a non-numeric one. -/
def convValueReference (attrs : List (String × String)) : Except FMUError Int :=
  match getAttr attrs "valueReference" with
  | none => Except.error FMUError.conversionError
  | some s =>
    match pyIntOfString s with
    | none => Except.error FMUError.conversionError
    | some i => Except.ok i

/-- Lines 176-177: `Causality[var] if var is not None else None`. -/
def convCausality (attrs : List (String × String)) : Except FMUError (Option Causality) :=
  match getAttr attrs "causality" with
  | none => Except.ok none
  | some s =>
    match causalityOfString s with
    | none => Except.error FMUError.conversionError
    | some c => Except.ok (some c)

/-- Lines 178-179: `Initial[var] if var is not None else None`. -/
def convInitial (attrs : List (String × String)) : Except FMUError (Option Initial) :=
  match getAttr attrs "initial" with
  | none => Except.ok none
  | some s =>
    match initialOfString s with
    | none => Except.error FMUError.conversionError
    | some i => Except.ok (some i)

/-- The `variable[0]` — `IndexError` on a childless element. -/
def firstChild (v : SVElement) : Except FMUError XMLChild :=
  match v.children.head? with
  | none => Except.error FMUError.indexError
  | some c => Except.ok c

/-- The per-element body of `__parse_fmu_scalar_variables` (lines 173-212):
reads `name`, `valueReference`, `causality`, `initial`, derives `data_type`
and `start` from the first child, then reads `unit`, `description`,
`canHandleMultipleSetPerTimeInstant`. -/
def parse_scalar_variable_element (v : SVElement) : Except FMUError FMUScalarVariable := do
  let name := getAttr v.attrs "name"
  let value_reference ← convValueReference v.attrs
  let causality ← convCausality v.attrs
  let initial ← convInitial v.attrs
  let child ← firstChild v
  let ds ← parse_data_type_and_start child
  match ds with
  | (data_type, start) =>
  Except.ok
    { name := name
      value_reference := some value_reference
      causality := causality
      data_type := some data_type
      variability := none
      description := getAttr v.attrs "description"
      initial := initial
      can_handle_multiple_set_per_time_instant := getAttr v.attrs "canHandleMultipleSetPerTimeInstant"
      start := start
      unit := getAttr v.attrs "unit" }

/-- The parse loop of lines 173-215: each element in document order,
appending to the result list; the first failure propagates. -/
def mapExcept (f : α → Except FMUError β) : List α → Except FMUError (List β)
  | [] => Except.ok []
  | a :: l => do
    let b ← f a
    let l' ← mapExcept f l
    Except.ok (b :: l')

/-- The `__parse_fmu_scalar_variables` (lines 163-219): `KeyError` when the
`findall` result is empty (section absent or no variables), otherwise the
elements parsed in document order. -/
def parse_fmu_scalar_variables (fmu_tree : FMUDocument) : Except FMUError (List FMUScalarVariable) :=
  let xml_variables := findallScalarVariables fmu_tree
  if xml_variables.isEmpty then
    Except.error FMUError.scalarVariablesNotFound
  else
    mapExcept parse_scalar_variable_element xml_variables

/-- The `__parse_fmu_default_experiment_parameter` (lines 109-127). -/
def parse_fmu_default_experiment_parameter (fmu_tree : FMUDocument) :
    Except FMUError DefaultExperiment := do
  match fmu_tree.defaultExperiment with
  | none => Except.error FMUError.defaultExperimentNotFound
  | some attrs =>
    let conv : String → Except FMUError (Option ℚ) := fun k =>
      match getAttr attrs k with
      | none => Except.ok none
      | some s =>
        match pyFloatOfString s with
        | none => Except.error FMUError.conversionError
        | some q => Except.ok (some q)
    let start_time ← conv "startTime"
    let stop_time ← conv "stopTime"
    let tolerance ← conv "tolerance"
    let step_size ← conv "stepSize"
    Except.ok { start_time := start_time, stop_time := stop_time,
                tolerance := tolerance, step_size := step_size }

/-- The `__parse_fmu_simulation_type` (lines 129-161): `CoSimulation` wins if
present; a `ModelExchange`-only document raises `NotImplementedError`;
neither section raises `KeyError`. -/
def parse_fmu_simulation_type (fmu_tree : FMUDocument) : Except FMUError FMUSimulationType :=
  match fmu_tree.coSimulation with
  | some attrs =>
    Except.ok (FMUSimulationType.coSimulation
      { model_identifier := getAttr attrs "modelIdentifier"
        needs_execution_tool := getAttr attrs "needsExecutionTool" = some "true"
        can_handle_variable_communication_step_size :=
          getAttr attrs "canHandleVariableCommunicationStepSize" = some "true"
        can_interpolate_inputs := getAttr attrs "canInterpolateInputs" = some "true"
        max_output_derivative_order := getAttr attrs "maxOutputDerivativeOrder"
        can_run_asynchronuously := getAttr attrs "canRunAsynchronuously" = some "true"
        can_be_instantiated_only_once_per_process :=
          getAttr attrs "canBeInstantiatedOnlyOncePerProcess" = some "true"
        can_not_use_memory_management_functions :=
          getAttr attrs "canNotUseMemoryManagementFunctions" = some "true"
        can_get_and_set_fmu_state := getAttr attrs "canGetAndSetFMUstate" = some "true"
        provides_directional_derivative :=
          getAttr attrs "providesDirectionalDerivative" = some "true"
        can_serialize_fmu_state := getAttr attrs "canSerializeFMUstate" = some "true" })
  | none =>
    if fmu_tree.modelExchangePresent then
      Except.error FMUError.modelExchangeNotImplemented
    else
      Except.error FMUError.coSimulationNotFound

/-- The `__parse_fmu_model_description` (lines 221-247); the keyword arguments
are evaluated in source order, so the scalar variables are parsed first,
then the default experiment, then the simulation type. -/
def parse_fmu_model_description (fmu_tree : FMUDocument) :
    Except FMUError FMIModelDescription := do
  let scalar_variables ← parse_fmu_scalar_variables fmu_tree
  let default_experiment ← parse_fmu_default_experiment_parameter fmu_tree
  let fmu_simulation_type ← parse_fmu_simulation_type fmu_tree
  Except.ok
    { fmi_version := getAttr fmu_tree.rootAttrs "fmiVersion"
      model_name := getAttr fmu_tree.rootAttrs "modelName"
      guid := getAttr fmu_tree.rootAttrs "guid"
      variable_naming_convention := getAttr fmu_tree.rootAttrs "variableNamingConvention"
      number_of_event_indicators := getAttr fmu_tree.rootAttrs "numberOfEventIndicators"
      model_variables := { scalar_variables := scalar_variables }
      default_experiment := default_experiment
      fmu_simulation_type := fmu_simulation_type
      description := getAttr fmu_tree.rootAttrs "description"
      author := getAttr fmu_tree.rootAttrs "author"
      version := getAttr fmu_tree.rootAttrs "version"
      copyright := getAttr fmu_tree.rootAttrs "copyright"
      license := getAttr fmu_tree.rootAttrs "license"
      generation_tool := getAttr fmu_tree.rootAttrs "generationTool"
      generation_date_and_time := getAttr fmu_tree.rootAttrs "generationDateAndTime" }

/-! ### Query Engine (`query_scalar_variables`, lines 249-299) -/

/-- Python truthiness of the optional-string fields (`if query.name:`). -/
def truthyOptStr : Option String → Bool
  | none => false
  | some s => s ≠ ""

/-- Python truthiness of the optional-int field (`if query.value_reference:`). -/
def truthyOptInt : Option Int → Bool
  | none => false
  | some i => i ≠ 0

/-- Python truthiness of the optional start field. -/
def truthyOptStart : Option StartValue → Bool
  | none => false
  | some v => truthyStart v

/-- The `element.start == query.start` for optional start values
(Python `None == x` is `False` for any non-`None` x). -/
def startMatches (es qs : Option StartValue) : Bool :=
  match es, qs with
  | some a, some b => pyEqStart a b
  | _, _ => false

/-- One pass of the guard chain of `query_scalar_variables` (lines
262-278): the element survives every `continue`.  Enum-valued fields are
always truthy when not `None`; `variability` and
`can_handle_multiple_set_per_time_instant` are never inspected. -/
def matchesQuery (query element : FMUScalarVariable) : Bool :=
  (!truthyOptStr query.name || element.name == query.name) &&
  (!truthyOptInt query.value_reference || element.value_reference == query.value_reference) &&
  (!query.causality.isSome || element.causality == query.causality) &&
  (!query.initial.isSome || element.initial == query.initial) &&
  (!query.data_type.isSome || element.data_type == query.data_type) &&
  (!truthyOptStr query.unit || element.unit == query.unit) &&
  (!truthyOptStr query.description || element.description == query.description) &&
  (!truthyOptStart query.start || startMatches element.start query.start)

/-- The `query_scalar_variables` (lines 249-281). -/
def query_scalar_variables (md : FMIModelDescription) (query : Option FMUScalarVariable) :
    List FMUScalarVariable :=
  match query with
  | none => md.model_variables.scalar_variables
  | some q => md.model_variables.scalar_variables.filter (fun e => matchesQuery q e)

/-- The `get_scalar_variable_by_name` (lines 283-299): `None` unless exactly
one variable matches the name query. -/
def get_scalar_variable_by_name (md : FMIModelDescription) (name : Option String) :
    Option FMUScalarVariable :=
  let variable0 := query_scalar_variables md (some { name := name })
  match variable0 with
  | [v] => some v
  | _ => none

/-! ### Mutation Engine (`__set_scalar_variable_by_name`, lines 301-367) -/

/-- The seven fields the cascade of lines 323-357 can set, in source
order. -/
inductive SettableField
  | causality | unit | start | data_type | initial | description | value_reference
  deriving DecidableEq, Repr

/-- The source order of the cascade. -/
def settableFieldOrder : List SettableField :=
  [SettableField.causality, SettableField.unit, SettableField.start,
   SettableField.data_type, SettableField.initial, SettableField.description,
   SettableField.value_reference]

/-- The `set_values.X is not None` / `variable.X is not None` for the
settable fields. -/
def fieldIsSet : SettableField → FMUScalarVariable → Bool
  | SettableField.causality, v => v.causality.isSome
  | SettableField.unit, v => v.unit.isSome
  | SettableField.start, v => v.start.isSome
  | SettableField.data_type, v => v.data_type.isSome
  | SettableField.initial, v => v.initial.isSome
  | SettableField.description, v => v.description.isSome
  | SettableField.value_reference, v => v.value_reference.isSome

/-- The `variable.X = set_values.X` for one settable field. -/
def copyField : SettableField → FMUScalarVariable → FMUScalarVariable → FMUScalarVariable
  | SettableField.causality, src, dst => { dst with causality := src.causality }
  | SettableField.unit, src, dst => { dst with unit := src.unit }
  | SettableField.start, src, dst => { dst with start := src.start }
  | SettableField.data_type, src, dst => { dst with data_type := src.data_type }
  | SettableField.initial, src, dst => { dst with initial := src.initial }
  | SettableField.description, src, dst => { dst with description := src.description }
  | SettableField.value_reference, src, dst => { dst with value_reference := src.value_reference }

/-- The if-cascade of lines 323-357: each requested field is copied onto
the target in turn; the first requested field that is `None` on the
target aborts with `KeyError`, keeping the fields already copied. -/
def set_fields (set_values : FMUScalarVariable) :
    FMUScalarVariable → List SettableField → FMUScalarVariable × Option FMUError
  | v, [] => (v, none)
  | v, f :: rest =>
    if fieldIsSet f set_values then
      if fieldIsSet f v then set_fields set_values (copyField f set_values v) rest
      else (v, some FMUError.attributeNotSet)
    else set_fields set_values v rest

/-- Replace the variables matched by the name query with the mutated
object (the Python code mutates the object held in the list in place; the
name is unique whenever `get_scalar_variable_by_name` succeeded, so
exactly one entry changes). -/
def replaceByName (md : FMIModelDescription) (name : Option String) (v' : FMUScalarVariable) :
    FMIModelDescription :=
  { md with model_variables :=
      { scalar_variables := md.model_variables.scalar_variables.map
          (fun e => if e.name == name then v' else e) } }

/-- The `__set_scalar_variable_by_name` (lines 301-357): silently returns with
no change when no (truthy) name is given; `KeyError` when the name does
not resolve uniquely; otherwise runs the field cascade, returning the
state reached together with the error, if any. -/
def set_scalar_variable_by_name (md : FMIModelDescription) (set_values : FMUScalarVariable) :
    FMIModelDescription × Option FMUError :=
  if !truthyOptStr set_values.name then (md, none)
  else
    match get_scalar_variable_by_name md set_values.name with
    | none => (md, some (FMUError.scalarVariableNotFound (pyDisplayOptStr set_values.name)))
    | some variable0 =>
      let (v', e) := set_fields set_values variable0 settableFieldOrder
      (replaceByName md set_values.name v', e)

/-- The `set_start_value` (lines 359-367). -/
def set_start_value (md : FMIModelDescription) (name : String) (value : StartValue) :
    FMIModelDescription × Option FMUError :=
  set_scalar_variable_by_name md { name := some name, start := some value }

/-! ### Removal (`remove_scalar_variable_by_name`, lines 438-450) -/

/-- The `remove_scalar_variable_by_name`: `KeyError` when the name does not
resolve uniquely, otherwise the name is appended to the pending-removal
list and the (unique, hence first equal) variable is erased from the live
collection.  Defined over the session below. -/
structure Session where
  fmu_tree : FMUDocument
  model_description : FMIModelDescription
  scalar_variables_to_be_removed : List String
  data : List ZipMember
  deriving DecidableEq, Repr

def remove_scalar_variable_by_name (s : Session) (name : String) : Except FMUError Session :=
  match get_scalar_variable_by_name s.model_description (some name) with
  | none => Except.error (FMUError.scalarVariableNotFound name)
  | some variable0 =>
    Except.ok
      { s with
        scalar_variables_to_be_removed :=
          s.scalar_variables_to_be_removed ++ [pyDisplayOptStr variable0.name]
        model_description :=
          { s.model_description with
            model_variables :=
              { scalar_variables :=
                  s.model_description.model_variables.scalar_variables.erase variable0 } } }

/-! ### Serializer (`__update_xml_model_description*`, lines 369-436,
and `get_zip_file_bytes_io`, lines 452-479) -/

/-- The attribute writes of
`__update_xml_model_description_scalar_variable` (lines 380-389), in
source order; a `none` value means the guard `if variable.X is not None`
skipped the write. -/
def attrWrites (variable0 : FMUScalarVariable) : List (String × Option String) :=
  [("causality", variable0.causality.map causalityEnumName),
   ("unit", variable0.unit),
   ("initial", variable0.initial.map initialEnumName),
   ("description", variable0.description),
   ("valueReference", variable0.value_reference.map (fun r => toString r))]

def applyAttrWrites (attrs : List (String × String)) :
    List (String × Option String) → List (String × String)
  | [] => attrs
  | (_, none) :: rest => applyAttrWrites attrs rest
  | (k, some v) :: rest => applyAttrWrites (setAttr attrs k v) rest

/-- The tag string of lines 392-405. -/
def dataTypeTag : FMUDataTypes → String
  | FMUDataTypes.real => "Real"
  | FMUDataTypes.integer => "Integer"
  | FMUDataTypes.boolean => "Boolean"
  | FMUDataTypes.enumeration => "Enumeration"
  | FMUDataTypes.string => "String"

/-- Lines 392-405: rewrite `element[0].tag` when `data_type` is set
(`IndexError` on a childless element). -/
def setChildTag (children : List XMLChild) (dt? : Option FMUDataTypes) :
    Except FMUError (List XMLChild) :=
  match dt? with
  | none => Except.ok children
  | some dt =>
    match children with
    | [] => Except.error FMUError.indexError
    | c :: rest => Except.ok ({ c with tag := dataTypeTag dt } :: rest)

/-- Lines 407-408: write `element[0].attrib["start"]` when `start` is set. -/
def setChildStart (children : List XMLChild) (st? : Option StartValue) :
    Except FMUError (List XMLChild) :=
  match st? with
  | none => Except.ok children
  | some st =>
    match children with
    | [] => Except.error FMUError.indexError
    | c :: rest =>
      Except.ok ({ c with attrs := setAttr c.attrs "start" (pyStrOfStart st) } :: rest)

/-- Lines 392-408: the child-node rewrites, tag first, then `start`. -/
def updateChildren (children : List XMLChild) (variable0 : FMUScalarVariable) :
    Except FMUError (List XMLChild) := do
  let children ← setChildTag children variable0.data_type
  setChildStart children variable0.start

/-- The `__update_xml_model_description_scalar_variable` applied to the
element the tree lookup found. -/
def update_element_with_variable (element : SVElement) (variable0 : FMUScalarVariable) :
    Except FMUError SVElement := do
  let attrs := applyAttrWrites element.attrs (attrWrites variable0)
  let children ← updateChildren element.children variable0
  Except.ok { attrs := attrs, children := children }

/-- The name attribute of an element, as matched by
`ScalarVariable[@name='…']`. -/
def elemName (e : SVElement) : Option String := getAttr e.attrs "name"

/-- The `find` then mutate: rewrite the first element with the given name;
`AttributeError` when the `find` returns `None` (line 377). -/
def modifyFirstNamed (name : String) (f : SVElement → Except FMUError SVElement) :
    List SVElement → Except FMUError (List SVElement)
  | [] => Except.error FMUError.attributeError
  | e :: rest =>
    if elemName e = some name then do
      let e' ← f e
      Except.ok (e' :: rest)
    else do
      let rest' ← modifyFirstNamed name f rest
      Except.ok (e :: rest')

def update_xml_model_description_scalar_variable (tree : FMUDocument)
    (variable0 : FMUScalarVariable) : Except FMUError FMUDocument :=
  match tree.modelVariables with
  | none => Except.error FMUError.attributeError
  | some vs => do
    let vs' ← modifyFirstNamed (pyDisplayOptStr variable0.name)
      (fun e => update_element_with_variable e variable0) vs
    Except.ok { tree with modelVariables := some vs' }

/-- The `__remove_xml_variable_by_name` (lines 427-436): detach the first
element with the given name from its parent; `AttributeError` when the
`find` returns `None`. -/
def removeFirstNamed (name : String) : List SVElement → Except FMUError (List SVElement)
  | [] => Except.error FMUError.attributeError
  | e :: rest =>
    if elemName e = some name then Except.ok rest
    else do
      let rest' ← removeFirstNamed name rest
      Except.ok (e :: rest')

def remove_xml_variable_by_name (tree : FMUDocument) (name : String) :
    Except FMUError FMUDocument :=
  match tree.modelVariables with
  | none => Except.error FMUError.attributeError
  | some vs => do
    let vs' ← removeFirstNamed name vs
    Except.ok { tree with modelVariables := some vs' }

/-- The drain loop of lines 417-420 (`while …: pop()`), popping from the
end of the pending list.  Defined on the already-reversed list. -/
def drainRemovalsRev (tree : FMUDocument) : List String → Except FMUError FMUDocument
  | [] => Except.ok tree
  | n :: rest => do
    let t ← remove_xml_variable_by_name tree n
    drainRemovalsRev t rest

/-- The update loop of lines 422-425. -/
def updateAllVariables (tree : FMUDocument) :
    List FMUScalarVariable → Except FMUError FMUDocument
  | [] => Except.ok tree
  | v :: rest => do
    let t ← update_xml_model_description_scalar_variable tree v
    updateAllVariables t rest

/-- The `__update_xml_model_description` (lines 410-425): drain the
pending-removal list (emptying it), then write every live variable back
onto the tree. -/
def update_xml_model_description (s : Session) : Except FMUError Session := do
  let t ← drainRemovalsRev s.fmu_tree s.scalar_variables_to_be_removed.reverse
  let t ← updateAllVariables t s.model_description.model_variables.scalar_variables
  Except.ok { s with fmu_tree := t, scalar_variables_to_be_removed := [] }

/-- The `get_zip_file_bytes_io` (lines 452-479): update the tree, serialize it
(`etree.tostring`), then write a new archive copying every member except
`modelDescription.xml` with its `ZipInfo` preserved and appending the new
document last, deflate-compressed and stamped with the current time
(`writestr` with a plain arcname records the wall clock, passed here as
`now`).  The new archive replaces `_data`. -/
def get_zip_file_bytes (s : Session) (now : Nat) :
    Except FMUError (List ZipMember × Session) := do
  let s ← update_xml_model_description s
  let zip_out :=
    (s.data.filter (fun item => item.filename ≠ "modelDescription.xml")) ++
      [{ filename := "modelDescription.xml", date_time := now,
         compress_type := ZIP_DEFLATED,
         content := MemberContent.xmlDocument s.fmu_tree }]
  Except.ok (zip_out, { s with data := zip_out })

/-- The `archive.open("modelDescription.xml")` (line 81): the first member of
that name, `KeyError` when absent. -/
def openModelDescriptionMember (data : List ZipMember) : Except FMUError ZipMember :=
  match data.find? (fun it => it.filename = "modelDescription.xml") with
  | none => Except.error FMUError.archiveMemberNotFound
  | some m => Except.ok m

/-- The `etree.parse` of a member's bytes (line 82): identifies a well-formed
serialization with its tree. -/
def etreeParse (m : ZipMember) : Except FMUError FMUDocument :=
  match m.content with
  | MemberContent.xmlDocument d => Except.ok d
  | MemberContent.rawBytes _ => Except.error FMUError.xmlSyntaxError

/-- The `FMUAdapter.__init__` on in-memory data (lines 42-87 plus the parse):
open the `modelDescription.xml` member, parse it into the element tree,
then build the model description; any failure propagates out of the
constructor, so no session with a partial model is ever produced. -/
def FMUAdapter_init (data : List ZipMember) : Except FMUError Session := do
  let m ← openModelDescriptionMember data
  let tree ← etreeParse m
  let md ← parse_fmu_model_description tree
  Except.ok { fmu_tree := tree, model_description := md,
              scalar_variables_to_be_removed := [], data := data }

/-! ### Auxiliary definitions for the claims -/

/-- Decidable equality of outcomes, so that concrete runs can be checked
by `decide`. -/
instance {ε α : Type} [DecidableEq ε] [DecidableEq α] : DecidableEq (Except ε α) := fun a b =>
  match a, b with
  | Except.error e₁, Except.error e₂ =>
    if h : e₁ = e₂ then isTrue (congrArg Except.error h)
    else isFalse (fun hc => h (by injection hc))
  | Except.error _, Except.ok _ => isFalse (fun hc => Except.noConfusion hc)
  | Except.ok _, Except.error _ => isFalse (fun hc => Except.noConfusion hc)
  | Except.ok a₁, Except.ok a₂ =>
    if h : a₁ = a₂ then isTrue (congrArg Except.ok h)
    else isFalse (fun hc => h (by injection hc))

/-- A value for exactly one settable field, used to state the per-field
guard behaviour. -/
inductive FieldWrite
  | causality (c : Causality)
  | unitF (u : String)
  | start (s : StartValue)
  | data_type (d : FMUDataTypes)
  | initial (i : Initial)
  | description (d : String)
  | value_reference (r : Int)
  deriving DecidableEq, Repr

def FieldWrite.field : FieldWrite → SettableField
  | FieldWrite.causality _ => SettableField.causality
  | FieldWrite.unitF _ => SettableField.unit
  | FieldWrite.start _ => SettableField.start
  | FieldWrite.data_type _ => SettableField.data_type
  | FieldWrite.initial _ => SettableField.initial
  | FieldWrite.description _ => SettableField.description
  | FieldWrite.value_reference _ => SettableField.value_reference

def FieldWrite.writeTo : FieldWrite → FMUScalarVariable → FMUScalarVariable
  | FieldWrite.causality c, v => { v with causality := some c }
  | FieldWrite.unitF u, v => { v with unit := some u }
  | FieldWrite.start s, v => { v with start := some s }
  | FieldWrite.data_type d, v => { v with data_type := some d }
  | FieldWrite.initial i, v => { v with initial := some i }
  | FieldWrite.description d, v => { v with description := some d }
  | FieldWrite.value_reference r, v => { v with value_reference := some r }

/-- The `set_values` object of a call that sets exactly one field. -/
def singleFieldRequest (name : String) (fw : FieldWrite) : FMUScalarVariable :=
  fw.writeTo { name := some name }

/-- Every field requested by `set_values` holds a non-`None` value on the
target variable. -/
def requested_fields_declared (set_values target : FMUScalarVariable) : Bool :=
  settableFieldOrder.all (fun f => !fieldIsSet f set_values || fieldIsSet f target)

/-- Number of `ScalarVariable` elements of the tree carrying the given
`name` attribute. -/
def countNamedElems (tree : FMUDocument) (n : String) : Nat :=
  ((findallScalarVariables tree).filter (fun e => elemName e = some n)).length

/-- The name attributes of the tree's `ScalarVariable` elements, in
document order. -/
def docElemNames (t : FMUDocument) : List (Option String) :=
  (findallScalarVariables t).map elemName

/-! ### Concrete fixtures -/

def elemA : SVElement :=
  { attrs := [("name", "a"), ("valueReference", "1"), ("causality", "parameter")],
    children := [{ tag := "Integer", attrs := [("start", "1")] }] }

def elemB : SVElement :=
  { attrs := [("name", "b"), ("valueReference", "2")],
    children := [{ tag := "Boolean", attrs := [("start", "false")] }] }

def sampleDoc : FMUDocument :=
  { rootAttrs := [("fmiVersion", "2.0"), ("modelName", "m"), ("guid", "g")],
    coSimulation := some [("modelIdentifier", "mid")],
    modelExchangePresent := false,
    defaultExperiment := some [],
    modelVariables := some [elemA, elemB] }

def sampleArchive : List ZipMember :=
  [{ filename := "modelDescription.xml", date_time := 100, compress_type := 8,
     content := MemberContent.xmlDocument sampleDoc },
   { filename := "binaries/model.so", date_time := 7, compress_type := 0,
     content := MemberContent.rawBytes [1, 2, 3] }]

/-- The parsed sample model (evaluated from the parser; the fallback arm
is never reached). -/
def sampleMD : FMIModelDescription :=
  match parse_fmu_model_description sampleDoc with
  | Except.ok md => md
  | Except.error _ =>
    { model_variables := { scalar_variables := [] },
      default_experiment := {},
      fmu_simulation_type := FMUSimulationType.modelExchange }

/-- The loaded sample session. -/
def sampleSession : Session :=
  { fmu_tree := sampleDoc, model_description := sampleMD,
    scalar_variables_to_be_removed := [], data := sampleArchive }

/-- A minimal model description around a given variable list. -/
def mkMD (vs : List FMUScalarVariable) : FMIModelDescription :=
  { model_variables := { scalar_variables := vs },
    default_experiment := {},
    fmu_simulation_type :=
      FMUSimulationType.coSimulation { model_identifier := some "mid" } }

def varA : FMUScalarVariable :=
  { name := some "a", value_reference := some 1,
    causality := some Causality.parameter,
    data_type := some FMUDataTypes.integer, start := some (StartValue.integer 1) }

def c1md : FMIModelDescription := mkMD [varA]

/-- A batch request whose first field (causality) is declared on `varA`
but whose second field (unit) is not. -/
def c1req : FMUScalarVariable :=
  { name := some "a", causality := some Causality.input, unit := some "m" }

def c2md : FMIModelDescription := mkMD [varA]

/-- A query pattern populating only `variability`. -/
def c2q : FMUScalarVariable := { variability := some Variability.constant }

/-- Document for the boolean-start evaluation: one variable whose value
child is `<Boolean start="false"/>`. -/
def c6doc : FMUDocument :=
  { rootAttrs := [], coSimulation := some [], modelExchangePresent := false,
    defaultExperiment := some [], modelVariables := some [elemB] }

/-- What the parser produces for `elemB`. -/
def c6var : FMUScalarVariable :=
  { name := some "b", value_reference := some 2,
    data_type := some FMUDataTypes.boolean,
    start := some (StartValue.boolean true) }

/-- Document with no `ModelVariables` section. -/
def c4docNoMV : FMUDocument :=
  { rootAttrs := [], coSimulation := some [], modelExchangePresent := false,
    defaultExperiment := some [], modelVariables := none }

/-- Document with no `DefaultExperiment` section. -/
def c4docNoDE : FMUDocument :=
  { rootAttrs := [], coSimulation := some [], modelExchangePresent := false,
    defaultExperiment := none, modelVariables := some [elemA] }

/-- Document with no simulation-type section at all. -/
def c4docNoSim : FMUDocument :=
  { rootAttrs := [], coSimulation := none, modelExchangePresent := false,
    defaultExperiment := some [], modelVariables := some [elemA] }

/-- Document with only a `ModelExchange` section. -/
def c4docMEonly : FMUDocument :=
  { rootAttrs := [], coSimulation := none, modelExchangePresent := true,
    defaultExperiment := some [], modelVariables := some [elemA] }

def c4badArchive : List ZipMember :=
  [{ filename := "modelDescription.xml", date_time := 0, compress_type := 8,
     content := MemberContent.xmlDocument c4docNoMV }]

/-- What the parser produces for `elemA`. -/
def parsedElemA : FMUScalarVariable :=
  { name := some "a", value_reference := some 1,
    causality := some Causality.parameter,
    data_type := some FMUDataTypes.integer,
    start := some (StartValue.integer 1) }

/-- A placeholder member for instantiating universally quantified
archive-member arguments. -/
def dummyMember : ZipMember :=
  { filename := "x", date_time := 0, compress_type := 0,
    content := MemberContent.rawBytes [] }

/-- The `elemB` after a render pass: the serializer wrote `start` back as
`str(True)` (the parsed value of `start="false"`, per the boolean bug). -/
def elemBRendered : SVElement :=
  { attrs := [("name", "b"), ("valueReference", "2")],
    children := [{ tag := "Boolean", attrs := [("start", "True")] }] }

/-- The `sampleDoc` after a render pass. -/
def sampleDocRendered : FMUDocument :=
  { sampleDoc with modelVariables := some [elemA, elemBRendered] }

/-- The archive produced by rendering the sample session at time `t`. -/
def renderedArchive (t : Nat) : List ZipMember :=
  [{ filename := "binaries/model.so", date_time := 7, compress_type := 0,
     content := MemberContent.rawBytes [1, 2, 3] },
   { filename := "modelDescription.xml", date_time := t, compress_type := 8,
     content := MemberContent.xmlDocument sampleDocRendered }]

/-- The session state after rendering the sample session at time `t`. -/
def renderedSession (t : Nat) : Session :=
  { fmu_tree := sampleDocRendered,
    model_description := sampleMD,
    scalar_variables_to_be_removed := [],
    data := renderedArchive t }

/-- The sample session after `remove_scalar_variable_by_name "b"`:
variable `b` left the live collection, its name joined the pending list,
tree and archive untouched. -/
def sampleSessionRemovedB : Session :=
  { fmu_tree := sampleDoc,
    model_description :=
      { sampleMD with model_variables := { scalar_variables := [parsedElemA] } },
    scalar_variables_to_be_removed := ["b"], data := sampleArchive }

/-- The `sampleDoc` after the deferred deletion of `b` at serialization. -/
def sampleDocRemovedB : FMUDocument :=
  { sampleDoc with modelVariables := some [elemA] }

/-- The archive rendered from `sampleSessionRemovedB` at time 9. -/
def c8out : List ZipMember :=
  [{ filename := "binaries/model.so", date_time := 7, compress_type := 0,
     content := MemberContent.rawBytes [1, 2, 3] },
   { filename := "modelDescription.xml", date_time := 9, compress_type := 8,
     content := MemberContent.xmlDocument sampleDocRemovedB }]

/-- The session state after that render. -/
def c8sess : Session :=
  { fmu_tree := sampleDocRemovedB,
    model_description :=
      { sampleMD with model_variables := { scalar_variables := [parsedElemA] } },
    scalar_variables_to_be_removed := [], data := c8out }

/-- The model parsed back from the rendered document. -/
def c8md : FMIModelDescription :=
  match parse_fmu_model_description sampleDocRemovedB with
  | Except.ok md => md
  | Except.error _ =>
    { model_variables := { scalar_variables := [] },
      default_experiment := {},
      fmu_simulation_type := FMUSimulationType.modelExchange }

/-- The session obtained by loading the rendered archive again. -/
def c8reloaded : Session :=
  { fmu_tree := sampleDocRemovedB, model_description := c8md,
    scalar_variables_to_be_removed := [], data := c8out }

/-! ## Helper lemmas -/

theorem bool_imp_iff (a b : Bool) : (!a || b) = true ↔ (a = true → b = true) := by
  cases a <;> cases b <;> decide

theorem matchesQuery_namePattern (name : String) (h : name ≠ "") (e : FMUScalarVariable) :
    matchesQuery { name := some name } e = (e.name == some name) := by
  simp [matchesQuery, truthyOptStr, truthyOptInt, truthyOptStart, h]

theorem get_by_name_eq_some_iff (md : FMIModelDescription) (name : String) (h : name ≠ "")
    (v : FMUScalarVariable) :
    get_scalar_variable_by_name md (some name) = some v ↔
      md.model_variables.scalar_variables.filter (fun e => e.name == some name) = [v] := by
  unfold get_scalar_variable_by_name query_scalar_variables
  simp only [matchesQuery_namePattern name h]
  rcases hl : md.model_variables.scalar_variables.filter (fun e => e.name == some name) with
    _ | ⟨a, _ | ⟨b, t⟩⟩ <;> rw [hl] <;> simp

theorem get_by_name_eq_none_iff (md : FMIModelDescription) (name : String) (h : name ≠ "") :
    get_scalar_variable_by_name md (some name) = none ↔
      (md.model_variables.scalar_variables.filter
        (fun e => e.name == some name)).length ≠ 1 := by
  unfold get_scalar_variable_by_name query_scalar_variables
  simp only [matchesQuery_namePattern name h]
  rcases hl : md.model_variables.scalar_variables.filter (fun e => e.name == some name) with
    _ | ⟨a, _ | ⟨b, t⟩⟩ <;> rw [hl] <;> simp

theorem eq_of_filter_singleton {α : Type} {p : α → Bool} {l : List α} {v : α}
    (h : l.filter p = [v]) : ∀ e ∈ l, p e = true → e = v := by
  induction l with
  | nil => intro e he; cases he
  | cons a t ih =>
    intro e he hp
    rcases List.mem_cons.mp he with he | he
    · subst he
      by_cases ha : p e = true
      · rw [List.filter_cons_of_pos ha] at h
        exact (List.cons_eq_cons.mp h).1
      · exact absurd hp ha
    · by_cases ha : p a = true
      · rw [List.filter_cons_of_pos ha] at h
        obtain ⟨-, ht⟩ := List.cons_eq_cons.mp h
        exfalso
        have hmem : e ∈ t.filter p := List.mem_filter.mpr ⟨he, hp⟩
        rw [ht] at hmem
        cases hmem
      · rw [List.filter_cons_of_neg ha] at h
        exact ih h e he hp

theorem map_id_on {α : Type} {f : α → α} {l : List α} (h : ∀ e ∈ l, f e = e) :
    l.map f = l := by
  induction l with
  | nil => rfl
  | cons a t ih =>
    simp only [List.map_cons, h a (List.mem_cons_self a t)]
    rw [ih (fun e he => h e (List.mem_cons_of_mem a he))]

theorem filter_map_replace {α : Type} (p : α → Bool) (v' : α) (hp : p v' = true) (l : List α) :
    (l.map (fun e => if p e then v' else e)).filter p = (l.filter p).map (fun _ => v') := by
  induction l with
  | nil => rfl
  | cons a t ih =>
    by_cases hb : p a = true
    · simp only [List.map_cons, if_pos hb, List.filter_cons_of_pos hp,
        List.filter_cons_of_pos hb, List.map_cons, ih]
    · simp only [List.map_cons, if_neg hb, List.filter_cons_of_neg (by simpa using hb),
        List.filter_cons_of_neg (by simpa using hb), ih]

theorem replaceByName_self (md : FMIModelDescription) (name : String) (h : name ≠ "")
    (v : FMUScalarVariable)
    (hget : get_scalar_variable_by_name md (some name) = some v) :
    replaceByName md (some name) v = md := by
  have hf := (get_by_name_eq_some_iff md name h v).1 hget
  unfold replaceByName
  have hmap : md.model_variables.scalar_variables.map
      (fun e => if e.name == some name then v else e) =
      md.model_variables.scalar_variables := by
    apply map_id_on
    intro e he
    by_cases hb : (e.name == some name) = true
    · rw [if_pos hb, eq_of_filter_singleton hf e he hb]
    · rw [if_neg hb]
  rw [hmap]

theorem get_replaceByName (md : FMIModelDescription) (name : String) (h : name ≠ "")
    (v v' : FMUScalarVariable)
    (hget : get_scalar_variable_by_name md (some name) = some v)
    (hname : v'.name = some name) :
    get_scalar_variable_by_name (replaceByName md (some name) v') (some name) = some v' := by
  have hf := (get_by_name_eq_some_iff md name h v).1 hget
  rw [get_by_name_eq_some_iff _ name h]
  show (md.model_variables.scalar_variables.map
      (fun e => if e.name == some name then v' else e)).filter
        (fun e => e.name == some name) = [v']
  rw [filter_map_replace _ v' (by simp [hname]), hf]
  rfl

/-! ## Claim theorems -/

/-- C6: the parser derives `data_type` from the first child tag, but the
boolean start conversion is Python `bool` applied to the raw attribute
string, whose truthiness makes every non-empty string `True`.  Evaluated
at the failing input `<ScalarVariable name="b" valueReference="2">
<Boolean start="false"/></ScalarVariable>`: the code yields start
`True`, while the claim requires the boolean `false`.  (Elsewhere the
same file parses XML booleans as `== "true"`, lines 141-153, so the
claim matches the intended FMI semantics and `bool(var)` at line 189 is
the slip.) -/
theorem c6_boolean_start_false_parses_to_true :
    getAttr elemB.attrs "name" = some "b" ∧
    elemB.children = [{ tag := "Boolean", attrs := [("start", "false")] }] ∧
    parse_fmu_scalar_variables c6doc = Except.ok [c6var] ∧
    c6var.start = some (StartValue.boolean true) := by
  refine ⟨rfl, rfl, ?_, rfl⟩
  decide

/-- C10: the query engine tests fields for Python truthiness, not
`None`-ness — a pattern whose `value_reference` is `0`, whose `start` is
`0`, `0.0` or `False`, or whose string field is empty imposes no
constraint, so each such query returns every variable. -/
theorem c10_falsy_pattern_fields_impose_no_constraint (md : FMIModelDescription) :
    query_scalar_variables md (some { value_reference := some 0 }) =
      md.model_variables.scalar_variables ∧
    query_scalar_variables md (some { start := some (StartValue.integer 0) }) =
      md.model_variables.scalar_variables ∧
    query_scalar_variables md (some { start := some (StartValue.real 0) }) =
      md.model_variables.scalar_variables ∧
    query_scalar_variables md (some { start := some (StartValue.boolean false) }) =
      md.model_variables.scalar_variables ∧
    query_scalar_variables md
        (some { name := some "", unit := some "", description := some "" }) =
      md.model_variables.scalar_variables := by
  refine ⟨?_, ?_, ?_, ?_, ?_⟩ <;>
    · show List.filter _ _ = _
      apply List.filter_eq_self.mpr
      intro a _
      rfl

/-- C1 counterexample: the claim asserts that a failed batch mutation
changes nothing, but the cascade applies fields in order and raises at
the first undeclared one, keeping the earlier ones.  On a model whose
variable `a` has a causality but no unit, the request setting both
causality and unit raises, yet the stored causality has changed. -/
theorem c1_counterexample :
    (set_scalar_variable_by_name c1md c1req).2 = some FMUError.attributeNotSet ∧
    (set_scalar_variable_by_name c1md c1req).1 ≠ c1md := by
  constructor
  · decide
  · decide

/-- C2 counterexample: the claim lists `variability` among the pattern
fields that constrain the query, but the guard chain never inspects it.
On a model whose only variable has `variability = None`, the pattern
populating only `variability` should (per the claim) match nothing, yet
the query returns the variable. -/
theorem c2_counterexample :
    c2q.variability = some Variability.constant ∧
    varA.variability ≠ c2q.variability ∧
    query_scalar_variables c2md (some c2q) = [varA] := by
  refine ⟨rfl, ?_, ?_⟩ <;> decide

/-! ## Mutation-engine lemmas -/

theorem all_congr_fun {α : Type} {p q : α → Bool} (h : ∀ a, p a = q a) (l : List α) :
    l.all p = l.all q := by
  induction l with
  | nil => rfl
  | cons a t ih => simp [List.all_cons, h a, ih]

theorem fieldIsSet_copyField (g f : SettableField) (src dst : FMUScalarVariable) :
    fieldIsSet g (copyField f src dst) =
      if g = f then fieldIsSet f src else fieldIsSet g dst := by
  cases g <;> cases f <;> rfl

theorem set_fields_error_none_iff (sv : FMUScalarVariable) :
    ∀ (fs : List SettableField) (v : FMUScalarVariable),
      (set_fields sv v fs).2 = none ↔
        fs.all (fun f => !fieldIsSet f sv || fieldIsSet f v) = true := by
  intro fs
  induction fs with
  | nil => intro v; simp [set_fields]
  | cons f rest ih =>
    intro v
    by_cases hreq : fieldIsSet f sv = true
    · by_cases hdecl : fieldIsSet f v = true
      · have hpt : ∀ g, (!fieldIsSet g sv || fieldIsSet g (copyField f sv v)) =
            (!fieldIsSet g sv || fieldIsSet g v) := by
          intro g
          rw [fieldIsSet_copyField]
          by_cases hgf : g = f
          · subst hgf; rw [if_pos rfl, hreq, hdecl]
          · rw [if_neg hgf]
        have hstep : set_fields sv v (f :: rest) = set_fields sv (copyField f sv v) rest := by
          simp [set_fields, hreq, hdecl]
        rw [hstep, ih (copyField f sv v), all_congr_fun hpt rest]
        simp [List.all_cons, hreq, hdecl]
      · have hdecl' : fieldIsSet f v = false := by
          cases hfv : fieldIsSet f v
          · rfl
          · exact absurd hfv hdecl
        simp [set_fields, hreq, hdecl', List.all_cons]
    · have hreq' : fieldIsSet f sv = false := by
        cases hfv : fieldIsSet f sv
        · rfl
        · exact absurd hfv hreq
      simp [set_fields, hreq', List.all_cons, ih v]

theorem singleFieldRequest_name (name : String) (fw : FieldWrite) :
    (singleFieldRequest name fw).name = some name := by
  cases fw <;> rfl

theorem writeTo_name (fw : FieldWrite) (v : FMUScalarVariable) :
    (fw.writeTo v).name = v.name := by
  cases fw <;> rfl

theorem set_fields_single (name : String) (fw : FieldWrite) (v : FMUScalarVariable) :
    set_fields (singleFieldRequest name fw) v settableFieldOrder =
      if fieldIsSet fw.field v = true then (fw.writeTo v, none)
      else (v, some FMUError.attributeNotSet) := by
  cases fw <;>
    (by_cases hb : fieldIsSet SettableField.causality v = true <;>
      simp [singleFieldRequest, FieldWrite.writeTo, FieldWrite.field,
        settableFieldOrder, set_fields, fieldIsSet, copyField, hb])

theorem set_by_name_eq (md : FMIModelDescription) (sv : FMUScalarVariable) (name : String)
    (hn : sv.name = some name) (h : name ≠ "") :
    set_scalar_variable_by_name md sv =
      match get_scalar_variable_by_name md (some name) with
      | none => (md, some (FMUError.scalarVariableNotFound name))
      | some v0 =>
        (replaceByName md (some name) (set_fields sv v0 settableFieldOrder).1,
          (set_fields sv v0 settableFieldOrder).2) := by
  have ht : truthyOptStr (some name) = true := by simp [truthyOptStr, h]
  unfold set_scalar_variable_by_name
  rw [hn, ht]
  cases hg : get_scalar_variable_by_name md (some name) with
  | none => simp [pyDisplayOptStr]
  | some v0 =>
    rcases hsf : set_fields sv v0 settableFieldOrder with ⟨v', e⟩
    simp [hsf]

theorem name_of_get (md : FMIModelDescription) (name : String) (h : name ≠ "")
    (v : FMUScalarVariable)
    (hget : get_scalar_variable_by_name md (some name) = some v) :
    v.name = some name := by
  have hf := (get_by_name_eq_some_iff md name h v).1 hget
  have hv : v ∈ md.model_variables.scalar_variables.filter (fun e => e.name == some name) := by
    rw [hf]; exact List.mem_singleton.mpr rfl
  have hb := (List.mem_filter.mp hv).2
  simpa using hb

/-- C1 amended: mutation is all-or-nothing only for single-field calls
such as `set_start_value`; a multi-field batch applies the requested
fields sequentially in the order causality, unit, start, data_type,
initial, description, value_reference, raises at the first field that is
undeclared on the target (so the call raises exactly when some requested
field is undeclared), and the fields copied before the failing one remain
applied. -/
theorem c1_sequential_mutation (md : FMIModelDescription) (name : String) (value : StartValue)
    (sv v : FMUScalarVariable)
    (hname : truthyOptStr sv.name = true)
    (hget : get_scalar_variable_by_name md sv.name = some v) :
    ((set_scalar_variable_by_name md sv).2 = none ↔
      requested_fields_declared sv v = true) ∧
    ((set_start_value md name value).2.isSome = true →
      (set_start_value md name value).1 = md) := by
  constructor
  · rcases hn : sv.name with _ | n
    · rw [hn] at hname; exact absurd hname (by simp [truthyOptStr])
    · have hne : n ≠ "" := by
        rw [hn] at hname
        simpa [truthyOptStr] using hname
      rw [hn] at hget
      rw [set_by_name_eq md sv n hn hne, hget]
      exact set_fields_error_none_iff sv settableFieldOrder v
  · by_cases hne : name = ""
    · subst hne
      intro hsome
      have : set_start_value md "" value = (md, none) := by
        unfold set_start_value set_scalar_variable_by_name
        simp [truthyOptStr]
      rw [this]
    · have hreq : set_start_value md name value =
          set_scalar_variable_by_name md (singleFieldRequest name (FieldWrite.start value)) := rfl
      rw [hreq, set_by_name_eq md _ name (singleFieldRequest_name name _) hne]
      cases hg : get_scalar_variable_by_name md (some name) with
      | none => intro _; rfl
      | some v0 =>
        simp only [set_fields_single]
        by_cases hdecl : fieldIsSet (FieldWrite.start value).field v0 = true
        · rw [if_pos hdecl]
          intro hsome
          exact absurd hsome (by simp)
        · rw [if_neg hdecl]
          intro _
          exact replaceByName_self md name hne v0 hg

/-- C1 witness: on the concrete model, the batch request `c1req` (set
causality and unit on `a`) has an undeclared field, so the call raises;
and a failing `set_start_value` leaves the model unchanged. -/
theorem c1_sequential_mutation_witness :
    truthyOptStr c1req.name = true ∧
    get_scalar_variable_by_name c1md c1req.name = some varA ∧
    ((set_scalar_variable_by_name c1md c1req).2 = none ↔
      requested_fields_declared c1req varA = true) ∧
    ((set_start_value c1md "a" (StartValue.integer 2)).2.isSome = true →
      (set_start_value c1md "a" (StartValue.integer 2)).1 = c1md) :=
  ⟨by decide, by decide,
    (c1_sequential_mutation c1md "a" (StartValue.integer 2) c1req varA
      (by decide) (by decide)).1,
    (c1_sequential_mutation c1md "a" (StartValue.integer 2) c1req varA
      (by decide) (by decide)).2⟩

/-- C5: for a name that resolves uniquely, setting one supported field
succeeds and is visible through `get_scalar_variable_by_name` exactly
when the parsed variable already holds a non-`None` value there, and
raises the `KeyError` of line 327 ("Desired attribute is not set…",
the spec's `FieldNotDeclared`) otherwise; an unresolved name raises the
`KeyError` of line 321 (the spec's `NotFound`). -/
theorem c5_field_guard (md : FMIModelDescription) (name : String) (fw : FieldWrite)
    (h : name ≠ "") :
    (get_scalar_variable_by_name md (some name) = none →
      set_scalar_variable_by_name md (singleFieldRequest name fw) =
        (md, some (FMUError.scalarVariableNotFound name))) ∧
    (∀ v, get_scalar_variable_by_name md (some name) = some v →
      (fieldIsSet fw.field v = true →
        (set_scalar_variable_by_name md (singleFieldRequest name fw)).2 = none ∧
        get_scalar_variable_by_name
          ((set_scalar_variable_by_name md (singleFieldRequest name fw)).1) (some name) =
          some (fw.writeTo v)) ∧
      (fieldIsSet fw.field v = false →
        set_scalar_variable_by_name md (singleFieldRequest name fw) =
          (md, some FMUError.attributeNotSet))) := by
  rw [set_by_name_eq md _ name (singleFieldRequest_name name fw) h]
  constructor
  · intro hg
    rw [hg]
  · intro v hg
    rw [hg]
    simp only [set_fields_single]
    constructor
    · intro hdecl
      rw [if_pos hdecl]
      refine ⟨rfl, ?_⟩
      exact get_replaceByName md name h v (fw.writeTo v) hg
        (by rw [writeTo_name]; exact name_of_get md name h v hg)
    · intro hdecl
      rw [if_neg (by simp [hdecl])]
      rw [replaceByName_self md name h v hg]

/-! ## Attribute-list and parser-shape lemmas -/

theorem getAttr_setAttr_self (l : List (String × String)) (k v : String) :
    getAttr (setAttr l k v) k = some v := by
  induction l with
  | nil => simp [setAttr, getAttr]
  | cons p rest ih =>
    by_cases hk : p.1 = k
    · simp [setAttr, getAttr, hk]
    · simp [setAttr, getAttr, hk, ih]

theorem getAttr_setAttr_other (l : List (String × String)) (k v k' : String) (h : k ≠ k') :
    getAttr (setAttr l k v) k' = getAttr l k' := by
  induction l with
  | nil => simp [setAttr, getAttr, h]
  | cons p rest ih =>
    by_cases hk : p.1 = k
    · simp [setAttr, getAttr, hk, h]
    · simp only [setAttr, getAttr, if_neg hk]
      by_cases hk' : p.1 = k'
      · simp [getAttr, hk']
      · simp [getAttr, hk', ih]

theorem setAttr_of_getAttr_eq (l : List (String × String)) (k v : String)
    (h : getAttr l k = some v) : setAttr l k v = l := by
  induction l with
  | nil => simp [getAttr] at h
  | cons p rest ih =>
    rcases p with ⟨k', v'⟩
    by_cases hk : k' = k
    · simp only [getAttr, if_pos hk] at h
      obtain rfl : v' = v := Option.some.inj h
      simp only [setAttr, if_pos hk]
      rw [hk]
    · simp only [getAttr, if_neg hk] at h
      simp only [setAttr, if_neg hk, ih h]

theorem getAttr_applyAttrWrites {key : String} :
    ∀ (ws : List (String × Option String)) (attrs : List (String × String)),
      (∀ p ∈ ws, p.1 ≠ key) →
      getAttr (applyAttrWrites attrs ws) key = getAttr attrs key := by
  intro ws
  induction ws with
  | nil => intro attrs _; rfl
  | cons p rest ih =>
    intro attrs hne
    rcases p with ⟨k, _ | v⟩
    · exact ih attrs (fun q hq => hne q (List.mem_cons_of_mem _ hq))
    · show getAttr (applyAttrWrites (setAttr attrs k v) rest) key = getAttr attrs key
      rw [ih _ (fun q hq => hne q (List.mem_cons_of_mem _ hq))]
      exact getAttr_setAttr_other attrs k v key
        (hne (k, some v) (List.mem_cons_self _ _))

theorem except_ok_bind {α β : Type} (a : α) (f : α → Except FMUError β) :
    (Except.ok a >>= f) = f a := rfl

theorem except_error_bind {α β : Type} (e' : FMUError) (f : α → Except FMUError β) :
    ((Except.error e' : Except FMUError α) >>= f) = Except.error e' := rfl

theorem except_bind_ok {α β : Type} {e : Except FMUError α} {f : α → Except FMUError β}
    {b : β} (h : (e >>= f) = Except.ok b) : ∃ a, e = Except.ok a ∧ f a = Except.ok b := by
  cases e with
  | error err => exact absurd h (by simp [Bind.bind, Except.bind])
  | ok a => exact ⟨a, rfl, h⟩

theorem mapExcept_ok_forall₂ {α β : Type} {f : α → Except FMUError β} :
    ∀ {l : List α} {bs : List β}, mapExcept f l = Except.ok bs →
      List.Forall₂ (fun a b => f a = Except.ok b) l bs := by
  intro l
  induction l with
  | nil =>
    intro bs h
    obtain rfl : ([] : List β) = bs := by
      simpa [mapExcept] using h
    exact List.Forall₂.nil
  | cons a t ih =>
    intro bs h
    unfold mapExcept at h
    obtain ⟨b, hb, h⟩ := except_bind_ok h
    obtain ⟨ts, hts, h⟩ := except_bind_ok h
    obtain rfl : b :: ts = bs := by simpa using h
    exact List.Forall₂.cons hb (ih hts)

theorem forall₂_mem_right {α β : Type} {R : α → β → Prop} :
    ∀ {l : List α} {bs : List β}, List.Forall₂ R l bs →
      ∀ b ∈ bs, ∃ a ∈ l, R a b := by
  intro l
  induction l with
  | nil =>
    intro bs h b hb
    cases h
    cases hb
  | cons a t ih =>
    intro bs h b hb
    cases h with
    | cons hR hrest =>
      rcases List.mem_cons.mp hb with rfl | hb
      · exact ⟨a, List.mem_cons_self _ _, hR⟩
      · obtain ⟨a', ha', hR'⟩ := ih hrest b hb
        exact ⟨a', List.mem_cons_of_mem _ ha', hR'⟩

/-- Shape of a successfully parsed element: the record built at lines
202-212 — in particular `variability` is never read and stays `None`, and
`name` is the element's name attribute. -/
theorem parse_elem_shape (el : SVElement) (v : FMUScalarVariable)
    (h : parse_scalar_variable_element el = Except.ok v) :
    v.variability = none ∧ v.name = elemName el := by
  unfold parse_scalar_variable_element at h
  obtain ⟨vr, hvr, h⟩ := except_bind_ok h
  obtain ⟨c, hc, h⟩ := except_bind_ok h
  obtain ⟨i, hi, h⟩ := except_bind_ok h
  obtain ⟨child, hchild, h⟩ := except_bind_ok h
  obtain ⟨ds, hds, h⟩ := except_bind_ok h
  rcases ds with ⟨dt, st⟩
  obtain rfl : _ = v := by simpa using h
  exact ⟨rfl, rfl⟩

theorem parsed_names (tree : FMUDocument) (vs : List FMUScalarVariable)
    (h : parse_fmu_scalar_variables tree = Except.ok vs) :
    ∀ v ∈ vs, ∃ el ∈ findallScalarVariables tree, v.name = elemName el := by
  unfold parse_fmu_scalar_variables at h
  by_cases he : (findallScalarVariables tree).isEmpty = true
  · rw [if_pos he] at h
    cases h
  · rw [if_neg he] at h
    intro v hv
    obtain ⟨el, hel, hR⟩ := forall₂_mem_right (mapExcept_ok_forall₂ h) v hv
    exact ⟨el, hel, (parse_elem_shape el v hR).2⟩

/-- C2 amended: the query is AND-of-truthy-fields equality over the eight
fields the guard chain inspects (name, value_reference, causality,
initial, data_type, unit, description, start — with Python `==` for
start); `variability` and `can_handle_multiple_set_per_time_instant`
never constrain; an absent pattern returns every variable in order, the
result is always an order-preserving sublist, and a non-matching pattern
gives `[]` rather than an error. -/
theorem c2_query_field_semantics (md : FMIModelDescription) (q : FMUScalarVariable) :
    query_scalar_variables md none = md.model_variables.scalar_variables ∧
    query_scalar_variables md
        (some { q with variability := none,
                       can_handle_multiple_set_per_time_instant := none }) =
      query_scalar_variables md (some q) ∧
    List.Sublist (query_scalar_variables md (some q))
      md.model_variables.scalar_variables ∧
    (∀ e, e ∈ query_scalar_variables md (some q) ↔
      e ∈ md.model_variables.scalar_variables ∧
      (truthyOptStr q.name = true → e.name = q.name) ∧
      (truthyOptInt q.value_reference = true → e.value_reference = q.value_reference) ∧
      (q.causality.isSome = true → e.causality = q.causality) ∧
      (q.initial.isSome = true → e.initial = q.initial) ∧
      (q.data_type.isSome = true → e.data_type = q.data_type) ∧
      (truthyOptStr q.unit = true → e.unit = q.unit) ∧
      (truthyOptStr q.description = true → e.description = q.description) ∧
      (truthyOptStart q.start = true → startMatches e.start q.start = true)) := by
  refine ⟨rfl, rfl, List.filter_sublist _, ?_⟩
  intro e
  show e ∈ List.filter _ _ ↔ _
  rw [List.mem_filter]
  simp only [matchesQuery, Bool.and_eq_true, bool_imp_iff, beq_iff_eq]
  tauto

/-- C4: parsing fails on structural absence with the corresponding error
class, and no partial model escapes.  The `KeyError`s of lines 217, 126
and 159 are the spec's `MalformedDocument` class, the
`NotImplementedError` of line 157 is `UnsupportedSimulationType`; an
empty `findall` covers both a missing `ModelVariables` section and zero
`ScalarVariable` elements; and a session is only constructed around a
completely parsed model (the constructor re-raises any parse error, so no
partially initialized `model_description` is observable). -/
theorem c4_parse_structural_failures (tree : FMUDocument) (data : List ZipMember)
    (m : ZipMember) (vs : List FMUScalarVariable) (de : DefaultExperiment) (e : FMUError) :
    (findallScalarVariables tree = [] →
      parse_fmu_model_description tree = Except.error FMUError.scalarVariablesNotFound) ∧
    (parse_fmu_scalar_variables tree = Except.ok vs → tree.defaultExperiment = none →
      parse_fmu_model_description tree = Except.error FMUError.defaultExperimentNotFound) ∧
    (parse_fmu_scalar_variables tree = Except.ok vs →
      parse_fmu_default_experiment_parameter tree = Except.ok de →
      tree.coSimulation = none → tree.modelExchangePresent = false →
      parse_fmu_model_description tree = Except.error FMUError.coSimulationNotFound) ∧
    (parse_fmu_scalar_variables tree = Except.ok vs →
      parse_fmu_default_experiment_parameter tree = Except.ok de →
      tree.coSimulation = none → tree.modelExchangePresent = true →
      parse_fmu_model_description tree = Except.error FMUError.modelExchangeNotImplemented) ∧
    (data.find? (fun it => it.filename = "modelDescription.xml") = some m →
      m.content = MemberContent.xmlDocument tree →
      parse_fmu_model_description tree = Except.error e →
      FMUAdapter_init data = Except.error e) ∧
    (∀ s, FMUAdapter_init data = Except.ok s →
      parse_fmu_model_description s.fmu_tree = Except.ok s.model_description ∧
      s.data = data) := by
  refine ⟨?_, ?_, ?_, ?_, ?_, ?_⟩
  · intro h
    unfold parse_fmu_model_description parse_fmu_scalar_variables
    rw [h]
    rfl
  · intro hvs hde
    unfold parse_fmu_model_description
    rw [hvs]
    unfold parse_fmu_default_experiment_parameter
    rw [hde]
    rfl
  · intro hvs hde hcs hme
    unfold parse_fmu_model_description
    rw [hvs, hde]
    unfold parse_fmu_simulation_type
    rw [hcs, hme]
    rfl
  · intro hvs hde hcs hme
    unfold parse_fmu_model_description
    rw [hvs, hde]
    unfold parse_fmu_simulation_type
    rw [hcs, hme]
    rfl
  · intro hfind hcontent hparse
    unfold FMUAdapter_init
    rw [show openModelDescriptionMember data = Except.ok m by
      unfold openModelDescriptionMember; rw [hfind]]
    rw [except_ok_bind]
    rw [show etreeParse m = Except.ok tree by
      unfold etreeParse; rw [hcontent]]
    rw [except_ok_bind, hparse, except_error_bind]
  · intro s hs
    unfold FMUAdapter_init at hs
    obtain ⟨m1, hm1, hs⟩ := except_bind_ok hs
    obtain ⟨tree1, htree1, hs⟩ := except_bind_ok hs
    obtain ⟨md1, hmd1, hs⟩ := except_bind_ok hs
    obtain rfl : _ = s := by simpa using hs
    exact ⟨hmd1, rfl⟩

/-- C4 witness: the four structural failure shapes and the constructor
propagation, each at a concrete document. -/
theorem c4_parse_structural_failures_witness :
    parse_fmu_model_description c4docNoMV =
      Except.error FMUError.scalarVariablesNotFound ∧
    parse_fmu_model_description c4docNoDE =
      Except.error FMUError.defaultExperimentNotFound ∧
    parse_fmu_model_description c4docNoSim =
      Except.error FMUError.coSimulationNotFound ∧
    parse_fmu_model_description c4docMEonly =
      Except.error FMUError.modelExchangeNotImplemented ∧
    FMUAdapter_init c4badArchive = Except.error FMUError.scalarVariablesNotFound := by
  have hA := (c4_parse_structural_failures c4docNoMV [] dummyMember [] {}
    FMUError.scalarVariablesNotFound).1 (by decide)
  refine ⟨hA, ?_, ?_, ?_, ?_⟩
  · exact (c4_parse_structural_failures c4docNoDE [] dummyMember [parsedElemA] {}
      FMUError.scalarVariablesNotFound).2.1 (by decide) (by decide)
  · exact (c4_parse_structural_failures c4docNoSim [] dummyMember [parsedElemA] {}
      FMUError.scalarVariablesNotFound).2.2.1 (by decide) (by decide) (by decide) (by decide)
  · exact (c4_parse_structural_failures c4docMEonly [] dummyMember [parsedElemA] {}
      FMUError.scalarVariablesNotFound).2.2.2.1 (by decide) (by decide) (by decide) (by decide)
  · exact (c4_parse_structural_failures c4docNoMV c4badArchive
      { filename := "modelDescription.xml", date_time := 0, compress_type := 8,
        content := MemberContent.xmlDocument c4docNoMV } [] {}
      FMUError.scalarVariablesNotFound).2.2.2.2.1 (by decide) (by decide) hA

theorem map_congr_on {α β : Type} {f g : α → β} {l : List α} (h : ∀ e ∈ l, f e = g e) :
    l.map f = l.map g := by
  induction l with
  | nil => rfl
  | cons a t ih =>
    simp only [List.map_cons, h a (List.mem_cons_self a t)]
    rw [ih (fun e he => h e (List.mem_cons_of_mem a he))]

theorem copyField_variability (f : SettableField) (src dst : FMUScalarVariable) :
    (copyField f src dst).variability = dst.variability := by
  cases f <;> rfl

theorem set_fields_variability (sv : FMUScalarVariable) :
    ∀ (fs : List SettableField) (v : FMUScalarVariable),
      ((set_fields sv v fs).1).variability = v.variability := by
  intro fs
  induction fs with
  | nil => intro v; rfl
  | cons f rest ih =>
    intro v
    by_cases hreq : fieldIsSet f sv = true
    · by_cases hdecl : fieldIsSet f v = true
      · have : set_fields sv v (f :: rest) = set_fields sv (copyField f sv v) rest := by
          simp [set_fields, hreq, hdecl]
        rw [this, ih (copyField f sv v), copyField_variability]
      · have hdecl' : fieldIsSet f v = false := by
          cases hfv : fieldIsSet f v
          · rfl
          · exact absurd hfv hdecl
        simp [set_fields, hreq, hdecl']
    · have hreq' : fieldIsSet f sv = false := by
        cases hfv : fieldIsSet f sv
        · rfl
        · exact absurd hfv hreq
      simp [set_fields, hreq', ih v]

theorem replaceByName_variability_map (md : FMIModelDescription) (nm : Option String)
    (v' : FMUScalarVariable)
    (hvar : ∀ e ∈ md.model_variables.scalar_variables,
      (e.name == nm) = true → v'.variability = e.variability) :
    (replaceByName md nm v').model_variables.scalar_variables.map (fun v => v.variability) =
      md.model_variables.scalar_variables.map (fun v => v.variability) := by
  show (md.model_variables.scalar_variables.map
      (fun e => if e.name == nm then v' else e)).map (fun v => v.variability) = _
  rw [List.map_map]
  apply map_congr_on
  intro e he
  simp only [Function.comp]
  by_cases hb : (e.name == nm) = true
  · rw [if_pos hb]
    exact hvar e he hb
  · rw [if_neg hb]

/-- C9: `variability` is dead in the code — the parser leaves it `None`,
the mutation cascade has no branch for it, removal only drops variables,
the query guard chain never reads it (a pattern's `variability` can be
nulled without changing any result), and the serializer never writes a
`variability` attribute. -/
theorem c9_variability_invariant (tree : FMUDocument) (vs : List FMUScalarVariable)
    (md : FMIModelDescription) (sv q : FMUScalarVariable) (s s' : Session) (n : String)
    (el el' : SVElement) (v0 : FMUScalarVariable) :
    (parse_fmu_scalar_variables tree = Except.ok vs → ∀ v ∈ vs, v.variability = none) ∧
    (((set_scalar_variable_by_name md sv).1).model_variables.scalar_variables.map
        (fun v => v.variability) =
      md.model_variables.scalar_variables.map (fun v => v.variability)) ∧
    (query_scalar_variables md (some { q with variability := none }) =
      query_scalar_variables md (some q)) ∧
    (remove_scalar_variable_by_name s n = Except.ok s' →
      ∀ e ∈ s'.model_description.model_variables.scalar_variables,
        e ∈ s.model_description.model_variables.scalar_variables) ∧
    (update_element_with_variable el v0 = Except.ok el' →
      getAttr el'.attrs "variability" = getAttr el.attrs "variability") := by
  refine ⟨?_, ?_, rfl, ?_, ?_⟩
  · intro h v hv
    unfold parse_fmu_scalar_variables at h
    by_cases he : (findallScalarVariables tree).isEmpty = true
    · rw [if_pos he] at h
      cases h
    · rw [if_neg he] at h
      obtain ⟨el0, _, hR⟩ := forall₂_mem_right (mapExcept_ok_forall₂ h) v hv
      exact (parse_elem_shape el0 v hR).1
  · by_cases ht : truthyOptStr sv.name = true
    · unfold set_scalar_variable_by_name
      rw [ht, if_neg (by decide)]
      rcases hn : sv.name with _ | n1
      · rw [hn] at ht
        exact absurd ht (by simp [truthyOptStr])
      · have hne : n1 ≠ "" := by
          rw [hn] at ht
          simpa [truthyOptStr] using ht
        cases hg : get_scalar_variable_by_name md (some n1) with
        | none => rfl
        | some v1 =>
          have hf := (get_by_name_eq_some_iff md n1 hne v1).1 hg
          rcases hsf : set_fields sv v1 settableFieldOrder with ⟨v', err⟩
          simp only [hsf]
          apply replaceByName_variability_map
          intro e he hb
          have hv' : v'.variability = v1.variability := by
            have h2 := set_fields_variability sv settableFieldOrder v1
            rw [hsf] at h2
            exact h2
          rw [hv', eq_of_filter_singleton hf e he hb]
    · have ht' : truthyOptStr sv.name = false := by
        cases hfv : truthyOptStr sv.name
        · rfl
        · exact absurd hfv ht
      unfold set_scalar_variable_by_name
      rw [ht', if_pos (by decide)]
  · intro h e he
    unfold remove_scalar_variable_by_name at h
    cases hg : get_scalar_variable_by_name s.model_description (some n) with
    | none =>
      rw [hg] at h
      cases h
    | some v1 =>
      rw [hg] at h
      obtain rfl : _ = s' := by simpa using h
      simp only [] at he
      exact List.erase_subset _ _ he
  · intro h
    unfold update_element_with_variable at h
    obtain ⟨ch, hch, h⟩ := except_bind_ok h
    obtain rfl : _ = el' := by simpa using h
    show getAttr (applyAttrWrites el.attrs (attrWrites v0)) "variability" = _
    apply getAttr_applyAttrWrites
    intro p hp
    simp only [attrWrites, List.mem_cons, List.not_mem_nil, or_false] at hp
    rcases hp with rfl | rfl | rfl | rfl | rfl <;> simp

/-- C9 witness: concrete instances discharging each hypothesis — the
sample parse yields only `None` variabilities, removal keeps a subset,
and a concrete serializer run writes no `variability` attribute. -/
theorem c9_variability_invariant_witness :
    parse_fmu_scalar_variables sampleDoc = Except.ok [parsedElemA, c6var] ∧
    (∀ v ∈ [parsedElemA, c6var], v.variability = none) ∧
    remove_scalar_variable_by_name sampleSession "b" = Except.ok sampleSessionRemovedB ∧
    (∀ e ∈ sampleSessionRemovedB.model_description.model_variables.scalar_variables,
      e ∈ sampleSession.model_description.model_variables.scalar_variables) ∧
    update_element_with_variable elemA parsedElemA = Except.ok elemA :=
  ⟨by decide,
   (c9_variability_invariant sampleDoc [parsedElemA, c6var] sampleMD
      { name := some "a" } { name := some "a" } sampleSession sampleSessionRemovedB "b"
      elemA elemA parsedElemA).1 (by decide),
   by decide,
   (c9_variability_invariant sampleDoc [parsedElemA, c6var] sampleMD
      { name := some "a" } { name := some "a" } sampleSession sampleSessionRemovedB "b"
      elemA elemA parsedElemA).2.2.2.1 (by decide),
   by decide⟩

/-! ## Serializer/archive lemmas -/

theorem update_session_shape (s s₁ : Session)
    (h : update_xml_model_description s = Except.ok s₁) :
    ∃ t1 t2,
      drainRemovalsRev s.fmu_tree s.scalar_variables_to_be_removed.reverse = Except.ok t1 ∧
      updateAllVariables t1 s.model_description.model_variables.scalar_variables =
        Except.ok t2 ∧
      s₁ = { s with fmu_tree := t2, scalar_variables_to_be_removed := [] } := by
  unfold update_xml_model_description at h
  obtain ⟨t1, h1, h⟩ := except_bind_ok h
  obtain ⟨t2, h2, h⟩ := except_bind_ok h
  exact ⟨t1, t2, h1, h2, (Except.ok.inj h).symm⟩

theorem render_shape (s : Session) (now : Nat) (out : List ZipMember) (s' : Session)
    (h : get_zip_file_bytes s now = Except.ok (out, s')) :
    ∃ s₁, update_xml_model_description s = Except.ok s₁ ∧
      out = (s₁.data.filter (fun item => item.filename ≠ "modelDescription.xml")) ++
        [{ filename := "modelDescription.xml", date_time := now,
           compress_type := ZIP_DEFLATED,
           content := MemberContent.xmlDocument s₁.fmu_tree }] ∧
      s' = { s₁ with data := out } := by
  unfold get_zip_file_bytes at h
  obtain ⟨s₁, h1, h⟩ := except_bind_ok h
  have h' := Except.ok.inj h
  have hfst := congrArg Prod.fst h'
  have hsnd := congrArg Prod.snd h'
  simp only [] at hfst hsnd
  refine ⟨s₁, h1, hfst.symm, ?_⟩
  rw [← hsnd, ← hfst]

/-- C7: the rendered archive has the same member-name set as the input;
every member other than `modelDescription.xml` is carried over unchanged
(bytes, timestamp, compression scheme) with relative order preserved; and
the single `modelDescription.xml` member is the freshly rendered tree,
deflate-compressed. -/
theorem c7_archive_frame (s : Session) (now : Nat) (out : List ZipMember) (s' : Session)
    (hmem : "modelDescription.xml" ∈ s.data.map (fun m => m.filename))
    (h : get_zip_file_bytes s now = Except.ok (out, s')) :
    (∀ n, n ∈ out.map (fun m => m.filename) ↔ n ∈ s.data.map (fun m => m.filename)) ∧
    out.filter (fun m => m.filename ≠ "modelDescription.xml") =
      s.data.filter (fun m => m.filename ≠ "modelDescription.xml") ∧
    out.filter (fun m => m.filename = "modelDescription.xml") =
      [{ filename := "modelDescription.xml", date_time := now,
         compress_type := ZIP_DEFLATED,
         content := MemberContent.xmlDocument s'.fmu_tree }] := by
  obtain ⟨s₁, h1, hout, hs'⟩ := render_shape s now out s' h
  obtain ⟨t1, t2, hd, hu, hs₁⟩ := update_session_shape s s₁ h1
  have hdata : s₁.data = s.data := by rw [hs₁]
  have htree : s'.fmu_tree = s₁.fmu_tree := by rw [hs']
  rw [hdata] at hout
  refine ⟨?_, ?_, ?_⟩
  · intro n
    rw [hout]
    rw [List.map_append, List.mem_append]
    constructor
    · rintro (hn | hn)
      · obtain ⟨m, hm, rfl⟩ := List.mem_map.mp hn
        exact List.mem_map.mpr ⟨m, (List.mem_filter.mp hm).1, rfl⟩
      · simp only [List.map_cons, List.map_nil, List.mem_singleton] at hn
        rw [hn]
        exact hmem
    · intro hn
      obtain ⟨m, hm, rfl⟩ := List.mem_map.mp hn
      by_cases hd2 : m.filename = "modelDescription.xml"
      · right
        simp [hd2]
      · left
        exact List.mem_map.mpr ⟨m, List.mem_filter.mpr ⟨hm, by simp [hd2]⟩, rfl⟩
  · rw [hout, List.filter_append]
    have hF : (s.data.filter (fun m => m.filename ≠ "modelDescription.xml")).filter
        (fun m => m.filename ≠ "modelDescription.xml") =
        s.data.filter (fun m => m.filename ≠ "modelDescription.xml") :=
      List.filter_eq_self.mpr (fun a ha => (List.mem_filter.mp ha).2)
    rw [hF]
    simp
  · rw [hout, List.filter_append]
    have hF : (s.data.filter (fun m => m.filename ≠ "modelDescription.xml")).filter
        (fun m => m.filename = "modelDescription.xml") = [] := by
      rw [List.filter_eq_nil_iff]
      intro a ha
      have := (List.mem_filter.mp ha).2
      simp at this ⊢
      exact this
    rw [hF, htree]
    simp

/-- C7 witness: a concrete render of the sample session at time 5,
discharging the membership and success hypotheses. -/
theorem c7_archive_frame_witness :
    ("modelDescription.xml" ∈ sampleArchive.map (fun m => m.filename)) ∧
    get_zip_file_bytes sampleSession 5 =
      Except.ok (renderedArchive 5, renderedSession 5) ∧
    (renderedArchive 5).filter (fun m => m.filename ≠ "modelDescription.xml") =
      sampleArchive.filter (fun m => m.filename ≠ "modelDescription.xml") :=
  ⟨by decide, by decide,
    (c7_archive_frame sampleSession 5 (renderedArchive 5) (renderedSession 5)
      (by decide) (by decide)).2.1⟩

/-- C2 witness: the amended query semantics at a concrete model. -/
theorem c2_query_field_semantics_witness :
    query_scalar_variables c2md none = c2md.model_variables.scalar_variables ∧
    List.Sublist (query_scalar_variables c2md (some { name := some "a" }))
      c2md.model_variables.scalar_variables :=
  ⟨(c2_query_field_semantics c2md { name := some "a" }).1,
   (c2_query_field_semantics c2md { name := some "a" }).2.2.1⟩

/-! ## Serializer idempotence lemmas (for the re-render claims) -/

theorem applyAttrWrites_idem :
    ∀ (ws : List (String × Option String)) (attrs : List (String × String)),
      (ws.map Prod.fst).Nodup →
      applyAttrWrites (applyAttrWrites attrs ws) ws = applyAttrWrites attrs ws := by
  intro ws
  induction ws with
  | nil => intro attrs _; rfl
  | cons p rest ih =>
    intro attrs hnd
    rcases p with ⟨k, v?⟩
    simp only [List.map_cons] at hnd
    have hnd' := List.nodup_cons.mp hnd
    rcases v? with _ | v
    · exact ih attrs hnd'.2
    · have hk : ∀ q ∈ rest, q.1 ≠ k := by
        intro q hq hc
        exact hnd'.1 (List.mem_map.mpr ⟨q, hq, hc⟩)
      have hget : getAttr (applyAttrWrites (setAttr attrs k v) rest) k = some v := by
        rw [getAttr_applyAttrWrites rest _ hk]
        exact getAttr_setAttr_self attrs k v
      show applyAttrWrites
          (setAttr (applyAttrWrites (setAttr attrs k v) rest) k v) rest = _
      rw [setAttr_of_getAttr_eq _ _ _ hget]
      exact ih (setAttr attrs k v) hnd'.2

theorem attrWrites_keys (v0 : FMUScalarVariable) :
    (attrWrites v0).map Prod.fst =
      ["causality", "unit", "initial", "description", "valueReference"] := rfl

theorem setChildTag_idem (dt? : Option FMUDataTypes) (ch ch' : List XMLChild)
    (h : setChildTag ch dt? = Except.ok ch') : setChildTag ch' dt? = Except.ok ch' := by
  cases dt? with
  | none =>
    obtain rfl : ch = ch' := Except.ok.inj h
    rfl
  | some dt =>
    cases ch with
    | nil => exact absurd h (by simp [setChildTag])
    | cons c rest =>
      obtain rfl : _ = ch' := Except.ok.inj h
      rfl

theorem setChildStart_idem (st? : Option StartValue) (ch ch' : List XMLChild)
    (h : setChildStart ch st? = Except.ok ch') : setChildStart ch' st? = Except.ok ch' := by
  cases st? with
  | none =>
    obtain rfl : ch = ch' := Except.ok.inj h
    rfl
  | some st =>
    cases ch with
    | nil => exact absurd h (by simp [setChildStart])
    | cons c rest =>
      obtain rfl : _ = ch' := Except.ok.inj h
      show Except.ok _ = _
      rw [setAttr_of_getAttr_eq _ _ _ (getAttr_setAttr_self c.attrs _ _)]

theorem setChildStart_preserves_tagfix (dt? : Option FMUDataTypes) (st? : Option StartValue)
    (ch ch' : List XMLChild) (hfix : setChildTag ch dt? = Except.ok ch)
    (h : setChildStart ch st? = Except.ok ch') :
    setChildTag ch' dt? = Except.ok ch' := by
  cases st? with
  | none =>
    obtain rfl : ch = ch' := Except.ok.inj h
    exact hfix
  | some st =>
    cases ch with
    | nil => exact absurd h (by simp [setChildStart])
    | cons c rest =>
      obtain rfl : _ = ch' := Except.ok.inj h
      cases dt? with
      | none => rfl
      | some dt =>
        rcases c with ⟨ctag, cattrs⟩
        have hc := (List.cons_eq_cons.mp (Except.ok.inj hfix)).1
        have htag : dataTypeTag dt = ctag := congrArg XMLChild.tag hc
        subst htag
        rfl

theorem updateChildren_idem (v0 : FMUScalarVariable) (ch ch' : List XMLChild)
    (h : updateChildren ch v0 = Except.ok ch') :
    updateChildren ch' v0 = Except.ok ch' := by
  unfold updateChildren at h ⊢
  obtain ⟨ch1, h1, h2⟩ := except_bind_ok h
  have htagfix : setChildTag ch1 v0.data_type = Except.ok ch1 := setChildTag_idem _ _ _ h1
  have htagfix2 : setChildTag ch' v0.data_type = Except.ok ch' :=
    setChildStart_preserves_tagfix _ _ _ _ htagfix h2
  have hstart2 : setChildStart ch' v0.start = Except.ok ch' := setChildStart_idem _ _ _ h2
  show (setChildTag ch' v0.data_type >>= _) = _
  rw [htagfix2, except_ok_bind, hstart2]

theorem update_element_shape (el el' : SVElement) (v0 : FMUScalarVariable)
    (h : update_element_with_variable el v0 = Except.ok el') :
    ∃ ch, updateChildren el.children v0 = Except.ok ch ∧
      el' = { attrs := applyAttrWrites el.attrs (attrWrites v0), children := ch } := by
  unfold update_element_with_variable at h
  obtain ⟨ch, hch, h⟩ := except_bind_ok h
  exact ⟨ch, hch, (Except.ok.inj h).symm⟩

theorem update_element_name (el el' : SVElement) (v0 : FMUScalarVariable)
    (h : update_element_with_variable el v0 = Except.ok el') :
    elemName el' = elemName el := by
  obtain ⟨ch, hch, rfl⟩ := update_element_shape el el' v0 h
  show getAttr (applyAttrWrites el.attrs (attrWrites v0)) "name" = _
  apply getAttr_applyAttrWrites
  intro p hp
  simp only [attrWrites, List.mem_cons, List.not_mem_nil, or_false] at hp
  rcases hp with rfl | rfl | rfl | rfl | rfl <;> simp

theorem update_element_idem (el el' : SVElement) (v0 : FMUScalarVariable)
    (h : update_element_with_variable el v0 = Except.ok el') :
    update_element_with_variable el' v0 = Except.ok el' := by
  obtain ⟨ch, hch, rfl⟩ := update_element_shape el el' v0 h
  unfold update_element_with_variable
  have hnd : ((attrWrites v0).map Prod.fst).Nodup := by
    rw [attrWrites_keys]
    decide
  have hattrs : applyAttrWrites (applyAttrWrites el.attrs (attrWrites v0)) (attrWrites v0) =
      applyAttrWrites el.attrs (attrWrites v0) := applyAttrWrites_idem _ _ hnd
  have hch2 : updateChildren ch v0 = Except.ok ch := updateChildren_idem v0 _ _ hch
  show (updateChildren ch v0 >>= _) = _
  rw [hch2, except_ok_bind, hattrs]

theorem modifyFirstNamed_names (nm : String) (f : SVElement → Except FMUError SVElement)
    (hpres : ∀ e e', f e = Except.ok e' → elemName e' = elemName e) :
    ∀ (vs vs' : List SVElement), modifyFirstNamed nm f vs = Except.ok vs' →
      vs'.map elemName = vs.map elemName := by
  intro vs
  induction vs with
  | nil => intro vs' h; exact absurd h (by simp [modifyFirstNamed])
  | cons e rest ih =>
    intro vs' h
    unfold modifyFirstNamed at h
    by_cases hn : elemName e = some nm
    · rw [if_pos hn] at h
      obtain ⟨e', he', h⟩ := except_bind_ok h
      obtain rfl : _ = vs' := Except.ok.inj h
      simp [List.map_cons, hpres e e' he']
    · rw [if_neg hn] at h
      obtain ⟨rest', hrest, h⟩ := except_bind_ok h
      obtain rfl : _ = vs' := Except.ok.inj h
      simp [List.map_cons, ih rest' hrest]

theorem modifyFirstNamed_stabilizes (nm : String) (f : SVElement → Except FMUError SVElement)
    (hpres : ∀ e e', f e = Except.ok e' → elemName e' = elemName e)
    (hidem : ∀ e e', f e = Except.ok e' → f e' = Except.ok e') :
    ∀ (vs vs' : List SVElement), modifyFirstNamed nm f vs = Except.ok vs' →
      modifyFirstNamed nm f vs' = Except.ok vs' := by
  intro vs
  induction vs with
  | nil => intro vs' h; exact absurd h (by simp [modifyFirstNamed])
  | cons e rest ih =>
    intro vs' h
    unfold modifyFirstNamed at h
    by_cases hn : elemName e = some nm
    · rw [if_pos hn] at h
      obtain ⟨e', he', h⟩ := except_bind_ok h
      obtain rfl : _ = vs' := Except.ok.inj h
      unfold modifyFirstNamed
      rw [if_pos (by rw [hpres e e' he']; exact hn), hidem e e' he', except_ok_bind]
    · rw [if_neg hn] at h
      obtain ⟨rest', hrest, h⟩ := except_bind_ok h
      obtain rfl : _ = vs' := Except.ok.inj h
      unfold modifyFirstNamed
      rw [if_neg hn, ih rest' hrest, except_ok_bind]

theorem modifyFirstNamed_fix_preserved (nv m : String)
    (fv g : SVElement → Except FMUError SVElement) (hm : m ≠ nv)
    (hgpres : ∀ e e', g e = Except.ok e' → elemName e' = elemName e) :
    ∀ (vs vs₂ : List SVElement), modifyFirstNamed nv fv vs = Except.ok vs →
      modifyFirstNamed m g vs = Except.ok vs₂ →
      modifyFirstNamed nv fv vs₂ = Except.ok vs₂ := by
  intro vs
  induction vs with
  | nil => intro vs₂ h; exact absurd h (by simp [modifyFirstNamed])
  | cons e rest ih =>
    intro vs₂ hfix hg
    unfold modifyFirstNamed at hfix hg
    by_cases hne : elemName e = some nv
    · rw [if_pos hne] at hfix
      obtain ⟨e₁, he₁, hfix⟩ := except_bind_ok hfix
      have he₁e : e₁ = e := (List.cons_eq_cons.mp (Except.ok.inj hfix)).1
      rw [he₁e] at he₁
      have hnm : ¬ (elemName e = some m) := by
        rw [hne]
        intro hc
        exact hm (Option.some.inj hc).symm
      rw [if_neg hnm] at hg
      obtain ⟨rest₂, hrest₂, hg⟩ := except_bind_ok hg
      obtain rfl : _ = vs₂ := Except.ok.inj hg
      unfold modifyFirstNamed
      rw [if_pos hne, he₁, except_ok_bind]
    · rw [if_neg hne] at hfix
      obtain ⟨rest', hrest', hfix⟩ := except_bind_ok hfix
      obtain ⟨-, hrr⟩ := List.cons_eq_cons.mp (Except.ok.inj hfix)
      subst hrr
      by_cases hm2 : elemName e = some m
      · rw [if_pos hm2] at hg
        obtain ⟨e₂, he₂, hg⟩ := except_bind_ok hg
        obtain rfl : _ = vs₂ := Except.ok.inj hg
        unfold modifyFirstNamed
        rw [if_neg (by rw [hgpres e e₂ he₂]; exact hne), hrest', except_ok_bind]
      · rw [if_neg hm2] at hg
        obtain ⟨rest₂, hrest₂, hg⟩ := except_bind_ok hg
        obtain rfl : _ = vs₂ := Except.ok.inj hg
        unfold modifyFirstNamed
        rw [if_neg hne, ih rest₂ hrest' hrest₂, except_ok_bind]

theorem upd_doc_shape (t : FMUDocument) (v : FMUScalarVariable) (t' : FMUDocument)
    (h : update_xml_model_description_scalar_variable t v = Except.ok t') :
    ∃ vs vs', t.modelVariables = some vs ∧
      modifyFirstNamed (pyDisplayOptStr v.name)
        (fun e => update_element_with_variable e v) vs = Except.ok vs' ∧
      t' = { t with modelVariables := some vs' } := by
  unfold update_xml_model_description_scalar_variable at h
  cases hmv : t.modelVariables with
  | none =>
    rw [hmv] at h
    exact absurd h (by simp)
  | some vs =>
    rw [hmv] at h
    obtain ⟨vs', hvs', h⟩ := except_bind_ok h
    exact ⟨vs, vs', rfl, hvs', (Except.ok.inj h).symm⟩

theorem upd_doc_names (t : FMUDocument) (v : FMUScalarVariable) (t' : FMUDocument)
    (h : update_xml_model_description_scalar_variable t v = Except.ok t') :
    docElemNames t' = docElemNames t := by
  obtain ⟨vs, vs', hmv, hmod, rfl⟩ := upd_doc_shape t v t' h
  show ((findallScalarVariables { t with modelVariables := some vs' }).map elemName) =
    ((findallScalarVariables t).map elemName)
  rw [show findallScalarVariables { t with modelVariables := some vs' } = vs' from rfl]
  rw [show findallScalarVariables t = vs by unfold findallScalarVariables; rw [hmv]]
  exact modifyFirstNamed_names _ _ (fun e e' he => update_element_name e e' v he) vs vs' hmod

theorem upd_doc_stabilizes (t : FMUDocument) (v : FMUScalarVariable) (t' : FMUDocument)
    (h : update_xml_model_description_scalar_variable t v = Except.ok t') :
    update_xml_model_description_scalar_variable t' v = Except.ok t' := by
  obtain ⟨vs, vs', hmv, hmod, rfl⟩ := upd_doc_shape t v t' h
  have hstab := modifyFirstNamed_stabilizes (pyDisplayOptStr v.name)
    (fun e => update_element_with_variable e v)
    (fun e e' he => update_element_name e e' v he)
    (fun e e' he => update_element_idem e e' v he) vs vs' hmod
  unfold update_xml_model_description_scalar_variable
  show (modifyFirstNamed _ _ vs' >>= _) = _
  rw [hstab, except_ok_bind]

theorem upd_doc_fix_preserved (t : FMUDocument) (v w : FMUScalarVariable) (t₂ : FMUDocument)
    (hvw : pyDisplayOptStr w.name ≠ pyDisplayOptStr v.name)
    (hfix : update_xml_model_description_scalar_variable t v = Except.ok t)
    (hw : update_xml_model_description_scalar_variable t w = Except.ok t₂) :
    update_xml_model_description_scalar_variable t₂ v = Except.ok t₂ := by
  obtain ⟨vs, vs', hmv, hmod, heq⟩ := upd_doc_shape t v t hfix
  have hvs' : vs = vs' := by
    have h1 := congrArg FMUDocument.modelVariables heq
    rw [hmv] at h1
    exact Option.some.inj h1
  subst hvs'
  obtain ⟨ws, ws₂, hmv2, hmod2, rfl⟩ := upd_doc_shape t w t₂ hw
  have hws : ws = vs := by
    rw [hmv] at hmv2
    exact (Option.some.inj hmv2).symm
  subst hws
  have hfix2 := modifyFirstNamed_fix_preserved (pyDisplayOptStr v.name)
    (pyDisplayOptStr w.name)
    (fun e => update_element_with_variable e v)
    (fun e => update_element_with_variable e w)
    hvw (fun e e' he => update_element_name e e' w he) ws ws₂ hmod hmod2
  unfold update_xml_model_description_scalar_variable
  show (modifyFirstNamed _ _ ws₂ >>= _) = _
  rw [hfix2, except_ok_bind]

theorem updateAll_names :
    ∀ (vars : List FMUScalarVariable) (t t' : FMUDocument),
      updateAllVariables t vars = Except.ok t' →
      docElemNames t' = docElemNames t := by
  intro vars
  induction vars with
  | nil =>
    intro t t' h
    obtain rfl : t = t' := Except.ok.inj h
    rfl
  | cons v rest ih =>
    intro t t' h
    unfold updateAllVariables at h
    obtain ⟨t1, h1, h2⟩ := except_bind_ok h
    rw [ih t1 t' h2, upd_doc_names t v t1 h1]

theorem upd_fix_after_updateAll (v : FMUScalarVariable) :
    ∀ (ws : List FMUScalarVariable) (t t₂ : FMUDocument),
      (∀ w ∈ ws, pyDisplayOptStr w.name ≠ pyDisplayOptStr v.name) →
      update_xml_model_description_scalar_variable t v = Except.ok t →
      updateAllVariables t ws = Except.ok t₂ →
      update_xml_model_description_scalar_variable t₂ v = Except.ok t₂ := by
  intro ws
  induction ws with
  | nil =>
    intro t t₂ _ hfix h
    obtain rfl : t = t₂ := Except.ok.inj h
    exact hfix
  | cons w rest ih =>
    intro t t₂ hne hfix h
    unfold updateAllVariables at h
    obtain ⟨tA, hA, h2⟩ := except_bind_ok h
    have hfixA := upd_doc_fix_preserved t v w tA
      (hne w (List.mem_cons_self _ _)) hfix hA
    exact ih tA t₂ (fun u hu => hne u (List.mem_cons_of_mem _ hu)) hfixA h2

theorem updateAll_stabilizes :
    ∀ (vars : List FMUScalarVariable) (t t' : FMUDocument),
      (vars.map (fun v => pyDisplayOptStr v.name)).Nodup →
      updateAllVariables t vars = Except.ok t' →
      updateAllVariables t' vars = Except.ok t' := by
  intro vars
  induction vars with
  | nil =>
    intro t t' _ h
    obtain rfl : t = t' := Except.ok.inj h
    rfl
  | cons v rest ih =>
    intro t t' hnd h
    simp only [List.map_cons] at hnd
    have hnd' := List.nodup_cons.mp hnd
    unfold updateAllVariables at h
    obtain ⟨t1, h1, h2⟩ := except_bind_ok h
    have hfix1 := upd_doc_stabilizes t v t1 h1
    have hfix2 := upd_fix_after_updateAll v rest t1 t'
      (fun w hw hc => hnd'.1 (List.mem_map.mpr ⟨w, hw, hc⟩)) hfix1 h2
    have h3 := ih t1 t' hnd'.2 h2
    show (update_xml_model_description_scalar_variable t' v >>= _) = _
    rw [hfix2, except_ok_bind, h3]

/-- C3 counterexample: rendering twice with no mutation in between is
not byte-identical — `writestr` stamps the replaced
`modelDescription.xml` member with the wall-clock time, so renders one
second apart differ in that member's recorded timestamp. -/
theorem c3_counterexample :
    get_zip_file_bytes sampleSession 0 =
      Except.ok (renderedArchive 0, renderedSession 0) ∧
    get_zip_file_bytes (renderedSession 0) 1 =
      Except.ok (renderedArchive 1, renderedSession 1) ∧
    renderedArchive 0 ≠ renderedArchive 1 := by
  refine ⟨by decide, by decide, by decide⟩

/-- C3 amended: re-rendering with no mutation in between reproduces the
first archive except that the replaced `modelDescription.xml` member
carries the clock value of the second render; renders at equal clock
values (in particular within the same second) are byte-identical.
Stated for models without duplicate variable names (the update loop
writes each variable onto the first element carrying its name, so
duplicate names alias one element). -/
theorem c3_rerender_timestamp_only (s : Session) (t1 t2 : Nat)
    (a1 a2 : List ZipMember) (s1 s2 : Session)
    (hnd : ((s.model_description.model_variables.scalar_variables).map
      (fun v => pyDisplayOptStr v.name)).Nodup)
    (h1 : get_zip_file_bytes s t1 = Except.ok (a1, s1))
    (h2 : get_zip_file_bytes s1 t2 = Except.ok (a2, s2)) :
    a2 = a1.map (fun m => if m.filename = "modelDescription.xml"
      then { m with date_time := t2 } else m) ∧
    (t1 = t2 → a2 = a1) := by
  obtain ⟨sA, hupdA, houtA, hs1⟩ := render_shape s t1 a1 s1 h1
  obtain ⟨u1, T, hdrain, hupdall, hsA⟩ := update_session_shape s sA hupdA
  have hsAdata : sA.data = s.data := by rw [hsA]
  have hsAtree : sA.fmu_tree = T := by rw [hsA]
  have hs1tree : s1.fmu_tree = T := by rw [hs1, hsAtree]
  have hs1pend : s1.scalar_variables_to_be_removed = [] := by rw [hs1, hsA]
  have hs1model : s1.model_description = s.model_description := by rw [hs1, hsA]
  rw [hsAdata, hsAtree] at houtA
  obtain ⟨sB, hupdB, houtB, hs2⟩ := render_shape s1 t2 a2 s2 h2
  obtain ⟨uB, TB, hdrainB, hupdallB, hsB⟩ := update_session_shape s1 sB hupdB
  rw [hs1tree, hs1pend] at hdrainB
  obtain rfl : T = uB := Except.ok.inj hdrainB
  rw [hs1model] at hupdallB
  have hTfix : updateAllVariables T
      s.model_description.model_variables.scalar_variables = Except.ok T :=
    updateAll_stabilizes _ u1 T hnd hupdall
  have hTB : TB = T := (Except.ok.inj (hTfix.symm.trans hupdallB)).symm
  have hsBdata : sB.data = a1 := by rw [hsB, hs1]
  have hsBtree : sB.fmu_tree = T := by rw [hsB, hTB]
  rw [hsBdata, hsBtree] at houtB
  have hdesc : ∀ m ∈ (s.data.filter
      (fun item => item.filename ≠ "modelDescription.xml")),
      m.filename ≠ "modelDescription.xml" := by
    intro m hm
    have := (List.mem_filter.mp hm).2
    simpa using this
  have hfilter : a1.filter (fun item => item.filename ≠ "modelDescription.xml") =
      s.data.filter (fun item => item.filename ≠ "modelDescription.xml") := by
    rw [houtA, List.filter_append]
    have hF := List.filter_eq_self.mpr
      (fun a ha => (List.mem_filter.mp
        (ha : a ∈ s.data.filter (fun item => item.filename ≠ "modelDescription.xml"))).2)
    rw [hF]
    simp
  constructor
  · rw [houtB, hfilter, houtA, List.map_append]
    have hidF : (s.data.filter (fun item => item.filename ≠ "modelDescription.xml")).map
        (fun m => if m.filename = "modelDescription.xml"
          then { m with date_time := t2 } else m) =
        s.data.filter (fun item => item.filename ≠ "modelDescription.xml") :=
      map_id_on (fun m hm => by rw [if_neg (hdesc m hm)])
    rw [hidF]
    rfl
  · intro ht
    subst ht
    rw [houtB, hfilter, houtA]

/-- C3 witness: two renders of the sample session at the same clock
value, discharging the success and no-duplicate-names hypotheses. -/
theorem c3_rerender_timestamp_only_witness :
    ((sampleSession.model_description.model_variables.scalar_variables).map
      (fun v => pyDisplayOptStr v.name)).Nodup ∧
    get_zip_file_bytes sampleSession 0 =
      Except.ok (renderedArchive 0, renderedSession 0) ∧
    get_zip_file_bytes (renderedSession 0) 0 =
      Except.ok (renderedArchive 0, renderedSession 0) ∧
    renderedArchive 0 = renderedArchive 0 :=
  ⟨by decide, by decide, by decide,
    (c3_rerender_timestamp_only sampleSession 0 0 (renderedArchive 0) (renderedArchive 0)
      (renderedSession 0) (renderedSession 0) (by decide) (by decide) (by decide)).2 rfl⟩

/-! ## Removal and re-parse lemmas -/

theorem filter_erase_of_pos {α : Type} [DecidableEq α] (p : α → Bool) (v : α)
    (hp : p v = true) :
    ∀ l : List α, (l.erase v).filter p = (l.filter p).erase v := by
  intro l
  induction l with
  | nil => rfl
  | cons a t ih =>
    by_cases hav : a = v
    · subst hav
      rw [List.erase_cons_head, List.filter_cons_of_pos hp, List.erase_cons_head]
    · have hbeq : (a == v) = false := by simpa using hav
      rw [List.erase_cons, if_neg (by simp [hbeq])]
      by_cases hpa : p a = true
      · rw [List.filter_cons_of_pos hpa, List.filter_cons_of_pos hpa, ih,
          List.erase_cons, if_neg (by simp [hbeq])]
      · rw [List.filter_cons_of_neg (by simpa using hpa),
          List.filter_cons_of_neg (by simpa using hpa), ih]

theorem removeFirstNamed_count (n m : String) :
    ∀ (vs vs' : List SVElement), removeFirstNamed m vs = Except.ok vs' →
      (m = n → (vs.filter (fun e => elemName e = some n)).length =
        (vs'.filter (fun e => elemName e = some n)).length + 1) ∧
      (m ≠ n → (vs'.filter (fun e => elemName e = some n)).length =
        (vs.filter (fun e => elemName e = some n)).length) := by
  intro vs
  induction vs with
  | nil => intro vs' h; exact absurd h (by simp [removeFirstNamed])
  | cons e rest ih =>
    intro vs' h
    unfold removeFirstNamed at h
    by_cases hm : elemName e = some m
    · rw [if_pos hm] at h
      obtain rfl : rest = vs' := Except.ok.inj h
      constructor
      · intro hmn
        subst hmn
        rw [List.filter_cons_of_pos (by simpa using hm)]
        rfl
      · intro hmn
        have hen : ¬ (elemName e = some n) := by
          rw [hm]
          intro hc
          exact hmn (Option.some.inj hc)
        rw [List.filter_cons_of_neg (by simpa using hen)]
    · rw [if_neg hm] at h
      obtain ⟨rest', hrest, h⟩ := except_bind_ok h
      obtain rfl : _ = vs' := Except.ok.inj h
      have ihr := ih rest' hrest
      constructor
      · intro hmn
        by_cases hen : elemName e = some n
        · rw [List.filter_cons_of_pos (by simpa using hen),
            List.filter_cons_of_pos (by simpa using hen)]
          simp [List.length_cons, ihr.1 hmn]
        · rw [List.filter_cons_of_neg (by simpa using hen),
            List.filter_cons_of_neg (by simpa using hen)]
          exact ihr.1 hmn
      · intro hmn
        by_cases hen : elemName e = some n
        · rw [List.filter_cons_of_pos (by simpa using hen),
            List.filter_cons_of_pos (by simpa using hen)]
          simp [List.length_cons, ihr.2 hmn]
        · rw [List.filter_cons_of_neg (by simpa using hen),
            List.filter_cons_of_neg (by simpa using hen)]
          exact ihr.2 hmn

theorem remove_xml_shape (t : FMUDocument) (m : String) (t' : FMUDocument)
    (h : remove_xml_variable_by_name t m = Except.ok t') :
    ∃ vs vs', t.modelVariables = some vs ∧ removeFirstNamed m vs = Except.ok vs' ∧
      t' = { t with modelVariables := some vs' } := by
  unfold remove_xml_variable_by_name at h
  cases hmv : t.modelVariables with
  | none =>
    rw [hmv] at h
    exact absurd h (by simp)
  | some vs =>
    rw [hmv] at h
    obtain ⟨vs', hvs', h⟩ := except_bind_ok h
    exact ⟨vs, vs', rfl, hvs', (Except.ok.inj h).symm⟩

theorem remove_xml_count (t : FMUDocument) (m : String) (t' : FMUDocument) (n : String)
    (h : remove_xml_variable_by_name t m = Except.ok t') :
    (m = n → countNamedElems t n = countNamedElems t' n + 1) ∧
    (m ≠ n → countNamedElems t' n = countNamedElems t n) := by
  obtain ⟨vs, vs', hmv, hrem, rfl⟩ := remove_xml_shape t m t' h
  have hcount := removeFirstNamed_count n m vs vs' hrem
  constructor
  · intro hmn
    show countNamedElems t n = _
    unfold countNamedElems findallScalarVariables
    rw [hmv]
    exact hcount.1 hmn
  · intro hmn
    show _ = countNamedElems t n
    unfold countNamedElems findallScalarVariables
    rw [hmv]
    exact hcount.2 hmn

theorem drain_count_le (n : String) :
    ∀ (l : List String) (t t' : FMUDocument), drainRemovalsRev t l = Except.ok t' →
      countNamedElems t' n ≤ countNamedElems t n := by
  intro l
  induction l with
  | nil =>
    intro t t' h
    obtain rfl : t = t' := Except.ok.inj h
    exact Nat.le_refl _
  | cons m rest ih =>
    intro t t' h
    unfold drainRemovalsRev at h
    obtain ⟨tA, hA, h2⟩ := except_bind_ok h
    have hc := remove_xml_count t m tA n hA
    by_cases hmn : m = n
    · have := hc.1 hmn
      exact Nat.le_trans (ih tA t' h2) (by omega)
    · rw [← hc.2 hmn]
      exact ih tA t' h2

theorem drain_count_zero (n : String) :
    ∀ (l : List String) (t t' : FMUDocument), drainRemovalsRev t l = Except.ok t' →
      countNamedElems t n ≤ 1 → n ∈ l → countNamedElems t' n = 0 := by
  intro l
  induction l with
  | nil =>
    intro t t' _ _ hmem
    cases hmem
  | cons m rest ih =>
    intro t t' h hle hmem
    unfold drainRemovalsRev at h
    obtain ⟨tA, hA, h2⟩ := except_bind_ok h
    have hc := remove_xml_count t m tA n hA
    by_cases hmn : m = n
    · have h1 := hc.1 hmn
      have hzero : countNamedElems tA n = 0 := by omega
      have := drain_count_le n rest tA t' h2
      omega
    · have heq := hc.2 hmn
      rcases List.mem_cons.mp hmem with rfl | hmem'
      · exact absurd rfl hmn
      · exact ih tA t' h2 (by omega) hmem'

theorem length_filter_map_eq {α β : Type} (f : α → β) (p : β → Bool) :
    ∀ l : List α, ((l.map f).filter p).length = (l.filter (fun a => p (f a))).length := by
  intro l
  induction l with
  | nil => rfl
  | cons a t ih =>
    rw [List.map_cons]
    by_cases hpa : p (f a) = true <;> simp [List.filter_cons, hpa, ih]

theorem countNamedElems_of_names (t t' : FMUDocument)
    (hn : docElemNames t' = docElemNames t) (n : String) :
    countNamedElems t' n = countNamedElems t n := by
  have h1 : ∀ u : FMUDocument, countNamedElems u n =
      ((docElemNames u).filter (fun o => o = some n)).length := by
    intro u
    unfold countNamedElems docElemNames
    rw [length_filter_map_eq elemName (fun o => o = some n)]
  rw [h1 t', h1 t, hn]

theorem no_elem_of_count_zero (t : FMUDocument) (n : String)
    (h : countNamedElems t n = 0) :
    ∀ el ∈ findallScalarVariables t, ¬ (elemName el = some n) := by
  intro el hel hc
  have hmem : el ∈ (findallScalarVariables t).filter (fun e => elemName e = some n) :=
    List.mem_filter.mpr ⟨hel, by simpa using hc⟩
  unfold countNamedElems at h
  rw [List.length_eq_zero] at h
  rw [h] at hmem
  cases hmem

theorem find?_append_right {α : Type} (p : α → Bool) :
    ∀ (l₁ l₂ : List α), (∀ x ∈ l₁, ¬ p x = true) →
      List.find? p (l₁ ++ l₂) = List.find? p l₂ := by
  intro l₁
  induction l₁ with
  | nil => intro l₂ _; rfl
  | cons a t ih =>
    intro l₂ hne
    rw [List.cons_append, List.find?_cons_of_neg _ (hne a (List.mem_cons_self _ _))]
    exact ih l₂ (fun x hx => hne x (List.mem_cons_of_mem _ hx))

theorem FMUAdapter_init_shape (data : List ZipMember) (s₃ : Session)
    (h : FMUAdapter_init data = Except.ok s₃) :
    ∃ m, data.find? (fun it => it.filename = "modelDescription.xml") = some m ∧
      m.content = MemberContent.xmlDocument s₃.fmu_tree ∧
      parse_fmu_model_description s₃.fmu_tree = Except.ok s₃.model_description := by
  unfold FMUAdapter_init at h
  obtain ⟨m, hm, h⟩ := except_bind_ok h
  obtain ⟨tree, htree, h⟩ := except_bind_ok h
  obtain ⟨md, hmd, h⟩ := except_bind_ok h
  obtain rfl : _ = s₃ := Except.ok.inj h
  refine ⟨m, ?_, ?_, hmd⟩
  · unfold openModelDescriptionMember at hm
    cases hf : data.find? (fun it => it.filename = "modelDescription.xml") with
    | none =>
      rw [hf] at hm
      exact absurd hm (by simp)
    | some m0 =>
      rw [hf] at hm
      rw [Except.ok.inj hm]
  · unfold etreeParse at htree
    cases hc : m.content with
    | xmlDocument d =>
      rw [hc] at htree
      rw [Except.ok.inj htree]
    | rawBytes b =>
      rw [hc] at htree
      exact absurd htree (by simp)

theorem remove_session_shape (s : Session) (name : String) (s' : Session)
    (v : FMUScalarVariable)
    (hg : get_scalar_variable_by_name s.model_description (some name) = some v)
    (h : remove_scalar_variable_by_name s name = Except.ok s') :
    s' = { s with
      scalar_variables_to_be_removed :=
        s.scalar_variables_to_be_removed ++ [pyDisplayOptStr v.name],
      model_description :=
        { s.model_description with
          model_variables :=
            { scalar_variables :=
                s.model_description.model_variables.scalar_variables.erase v } } } := by
  unfold remove_scalar_variable_by_name at h
  rw [hg] at h
  exact (Except.ok.inj h).symm

theorem parse_md_scalars (tree : FMUDocument) (md : FMIModelDescription)
    (h : parse_fmu_model_description tree = Except.ok md) :
    parse_fmu_scalar_variables tree = Except.ok md.model_variables.scalar_variables := by
  unfold parse_fmu_model_description at h
  obtain ⟨vs, hvs, h⟩ := except_bind_ok h
  obtain ⟨de, hde, h⟩ := except_bind_ok h
  obtain ⟨st, hst, h⟩ := except_bind_ok h
  obtain rfl : _ = md := Except.ok.inj h
  exact hvs

/-- C8: removal fails on names that do not resolve uniquely (zero or
multiple live matches, the `KeyError` of line 447); on success the
variable leaves the live collection immediately (its name no longer
resolves and the empty query excludes it), the name joins the
pending-removal list while the retained XML tree and archive stay
untouched; and once the archive is rendered and loaded again, the
reloaded model contains no variable of that name (stated for trees
without duplicate `name` attributes for the removed name). -/
theorem c8_removal_semantics (s : Session) (name : String) (h : name ≠ "") :
    (get_scalar_variable_by_name s.model_description (some name) = none ↔
      (s.model_description.model_variables.scalar_variables.filter
        (fun e => e.name == some name)).length ≠ 1) ∧
    (get_scalar_variable_by_name s.model_description (some name) = none →
      remove_scalar_variable_by_name s name =
        Except.error (FMUError.scalarVariableNotFound name)) ∧
    (∀ v s', get_scalar_variable_by_name s.model_description (some name) = some v →
      remove_scalar_variable_by_name s name = Except.ok s' →
      get_scalar_variable_by_name s'.model_description (some name) = none ∧
      (∀ e ∈ query_scalar_variables s'.model_description none, ¬ e.name = some name) ∧
      s'.scalar_variables_to_be_removed = s.scalar_variables_to_be_removed ++ [name] ∧
      s'.fmu_tree = s.fmu_tree ∧
      s'.data = s.data ∧
      (countNamedElems s.fmu_tree name ≤ 1 →
        ∀ now out s₂ s₃, get_zip_file_bytes s' now = Except.ok (out, s₂) →
          FMUAdapter_init out = Except.ok s₃ →
          ∀ e ∈ s₃.model_description.model_variables.scalar_variables,
            ¬ e.name = some name)) := by
  refine ⟨get_by_name_eq_none_iff s.model_description name h, ?_, ?_⟩
  · intro hg
    unfold remove_scalar_variable_by_name
    rw [hg]
  · intro v s' hg hrem
    have hvname : v.name = some name := name_of_get _ name h v hg
    have hs' := remove_session_shape s name s' v hg hrem
    have hfilter := (get_by_name_eq_some_iff s.model_description name h v).1 hg
    have hpv : (fun (e : FMUScalarVariable) => e.name == some name) v = true := by
      simp [hvname]
    have herase : (s.model_description.model_variables.scalar_variables.erase v).filter
        (fun e => e.name == some name) = [] := by
      rw [filter_erase_of_pos _ v hpv, hfilter]
      simp
    have hget2 : get_scalar_variable_by_name s'.model_description (some name) = none := by
      rw [get_by_name_eq_none_iff _ name h, hs']
      show ((s.model_description.model_variables.scalar_variables.erase v).filter
        (fun e => e.name == some name)).length ≠ 1
      rw [herase]
      simp
    refine ⟨hget2, ?_, ?_, ?_, ?_, ?_⟩
    · intro e he hc
      rw [hs'] at he
      have hmem : e ∈ (s.model_description.model_variables.scalar_variables.erase v).filter
          (fun e => e.name == some name) :=
        List.mem_filter.mpr ⟨he, by simp [hc]⟩
      rw [herase] at hmem
      cases hmem
    · rw [hs', hvname]
      rfl
    · rw [hs']
    · rw [hs']
    · intro hcount now out s₂ s₃ hrender hinit
      obtain ⟨sA, hupd, hout, hs₂⟩ := render_shape s' now out s₂ hrender
      obtain ⟨u1, T, hdrain, hupdall, hsA⟩ := update_session_shape s' sA hupd
      have hpend : s'.scalar_variables_to_be_removed =
          s.scalar_variables_to_be_removed ++ [name] := by
        rw [hs', hvname]
        rfl
      have htree2 : s'.fmu_tree = s.fmu_tree := by rw [hs']
      have hmem : name ∈ s'.scalar_variables_to_be_removed.reverse := by
        rw [hpend, List.reverse_append]
        exact List.mem_append.mpr (Or.inl (by simp))
      have hcount2 : countNamedElems s'.fmu_tree name ≤ 1 := by
        rw [htree2]
        exact hcount
      have hzero : countNamedElems u1 name = 0 :=
        drain_count_zero name _ s'.fmu_tree u1 hdrain hcount2 hmem
      have hTzero : countNamedElems T name = 0 := by
        rw [countNamedElems_of_names u1 T (updateAll_names _ u1 T hupdall) name]
        exact hzero
      obtain ⟨m, hfind, hcontent, hparse⟩ := FMUAdapter_init_shape out s₃ hinit
      have hsAtree : sA.fmu_tree = T := by rw [hsA]
      have hfind2 : out.find? (fun it => it.filename = "modelDescription.xml") =
          some { filename := "modelDescription.xml", date_time := now,
                 compress_type := ZIP_DEFLATED,
                 content := MemberContent.xmlDocument T } := by
        rw [hout, find?_append_right _ _ _ (fun x hx => by
          have hx2 := (List.mem_filter.mp hx).2
          simpa using hx2)]
        rw [hsAtree]
        simp [List.find?]
      have hmeq : m = { filename := "modelDescription.xml", date_time := now,
                        compress_type := ZIP_DEFLATED,
                        content := MemberContent.xmlDocument T } := by
        rw [hfind] at hfind2
        exact Option.some.inj hfind2.symm |>.symm
      have hTtree : s₃.fmu_tree = T := by
        rw [hmeq] at hcontent
        have := hcontent.symm
        exact MemberContent.xmlDocument.inj this
      intro e he hc
      have hscalars := parse_md_scalars s₃.fmu_tree s₃.model_description hparse
      obtain ⟨el, hel, hname⟩ := parsed_names s₃.fmu_tree _ hscalars e he
      have hnoel := no_elem_of_count_zero s₃.fmu_tree name (by rw [hTtree]; exact hTzero)
      exact hnoel el hel (by rw [← hname, ← hc])

/-- C8 witness: removing `b` from the sample session, rendering at time
9 and loading the output back — the reloaded model has no variable `b`. -/
theorem c8_removal_semantics_witness :
    ("b" : String) ≠ "" ∧
    get_scalar_variable_by_name sampleSession.model_description (some "b") = some c6var ∧
    remove_scalar_variable_by_name sampleSession "b" = Except.ok sampleSessionRemovedB ∧
    countNamedElems sampleSession.fmu_tree "b" ≤ 1 ∧
    get_zip_file_bytes sampleSessionRemovedB 9 = Except.ok (c8out, c8sess) ∧
    FMUAdapter_init c8out = Except.ok c8reloaded ∧
    (∀ e ∈ c8reloaded.model_description.model_variables.scalar_variables,
      ¬ e.name = some "b") :=
  ⟨by decide, by decide, by decide, by decide, by decide, by decide,
   ((c8_removal_semantics sampleSession "b" (by decide)).2.2 c6var sampleSessionRemovedB
      (by decide) (by decide)).2.2.2.2.2 (by decide) 9 c8out c8sess c8reloaded
      (by decide) (by decide)⟩

/-- C5 witness: on the concrete model, setting the declared causality of
`a` succeeds and is observable, and setting its undeclared unit raises. -/
theorem c5_field_guard_witness :
    ("a" : String) ≠ "" ∧
    get_scalar_variable_by_name c1md (some "a") = some varA ∧
    fieldIsSet (FieldWrite.causality Causality.output).field varA = true ∧
    get_scalar_variable_by_name
      ((set_scalar_variable_by_name c1md
        (singleFieldRequest "a" (FieldWrite.causality Causality.output))).1) (some "a") =
      some ((FieldWrite.causality Causality.output).writeTo varA) ∧
    fieldIsSet (FieldWrite.unitF "m").field varA = false ∧
    set_scalar_variable_by_name c1md (singleFieldRequest "a" (FieldWrite.unitF "m")) =
      (c1md, some FMUError.attributeNotSet) := by
  refine ⟨by decide, by decide, by decide, ?_, by decide, ?_⟩
  · exact (((c5_field_guard c1md "a" (FieldWrite.causality Causality.output)
      (by decide)).2 varA (by decide)).1 (by decide)).2
  · exact ((c5_field_guard c1md "a" (FieldWrite.unitF "m")
      (by decide)).2 varA (by decide)).2 (by decide)

end FMUHandler
